import Mathlib

/-!
Shallow embedding of `src/gudang_supabase.py`, a Streamlit warehouse app
backed by a Supabase store with three collections (`users`, `items`,
`transactions`).

Modelling conventions:
* The remote store is a pure value `DB` holding the three collections as
  lists in insertion order, an `SERIAL`-style id counter for `items`
  (`nextId`), and a clock tick `now` standing for `datetime.now()`.
* Quantities (`DOUBLE PRECISION` in the store, Python floats in the app)
  are modelled as exact rationals `ℚ`.
* `supabase.table(..).select(..).eq(..).eq(..).limit(1)` is "first element
  of the list matching the filter"; `insert` appends; `update().eq("id",i)`
  rewrites every row whose id is `i`.
* `generate_trx_code` depends on `datetime.now()` and `random.randint`;
  the random component is passed in as an explicit `rand : Nat`.
* Streamlit handlers are modelled as pure functions from the store and the
  submitted form fields to the new store plus their UI output (an error
  message, or a trace of UI/persistence events where the ordering matters).
-/

/-- A row of the `users` collection. -/
structure Account where
  username : String
  password_hash : String
deriving DecidableEq

/-- A row of the `items` collection. -/
structure Item where
  id : Nat
  name : String
  category : String
  unit : String
  quantity : ℚ
  min_stock : ℚ
  rack_location : String
  expiry_date : Option String
  created_at : Nat
  updated_at : Nat
deriving DecidableEq

/-- A row of the `transactions` collection. -/
structure Trx where
  trx_type : String
  item_id : Option Nat
  name : String
  quantity : ℚ
  unit : String
  requester : Option String
  supplier : Option String
  note : String
  bundle_code : String
  trx_code : String
  expiry_date : Option String
  created_at : Nat
deriving DecidableEq

/-- The whole remote store plus the clock. -/
structure DB where
  users : List Account
  items : List Item
  transactions : List Trx
  nextId : Nat
  now : Nat
deriving DecidableEq

/-- The store right after table creation: no rows at all. -/
def emptyDB : DB :=
  { users := [], items := [], transactions := [], nextId := 1, now := 0 }

/-- `generate_trx_code`: `TRX-<TYPE>-<timestamp>-<random>`. -/
def generate_trx_code (trx_type : String) (now rand : Nat) : String :=
  "TRX-" ++ trx_type.toUpper ++ "-" ++ toString now ++ "-" ++ toString rand

/-- Python's `str.strip()`: drop whitespace from both ends. -/
def pyStrip (s : String) : String :=
  String.mk (((s.data.dropWhile Char.isWhitespace).reverse.dropWhile Char.isWhitespace).reverse)

/-- `select("*").eq("name", n).eq("unit", u).limit(1)` over `items`:
first row matching the (name, unit) filter. -/
def findItem : List Item → String → String → Option Item
  | [], _, _ => none
  | x :: xs, n, u => if x.name = n ∧ x.unit = u then some x else findItem xs n u

/-- `update({...}).eq("id", i)` over `items`: rewrite every row with id `i`. -/
def updateItemsById (items : List Item) (i : Nat) (f : Item → Item) : List Item :=
  items.map (fun x => if x.id = i then f x else x)

/-- The column values written by `upsert_item`'s update branch.  The new
quantity is computed from the fetched row `it`, and name/unit/id stay. -/
def inboundUpd (it : Item) (category : String) (quantity min_stock : ℚ)
    (rack_location : String) (expiry_date : Option String) (now : Nat)
    (x : Item) : Item :=
  { x with quantity := it.quantity + quantity, category := category,
           min_stock := min_stock, rack_location := rack_location,
           expiry_date := expiry_date, updated_at := now }

/-- The store after `upsert_item`'s update branch. -/
def upsertUpdatedDB (db : DB) (it : Item) (category : String) (quantity min_stock : ℚ)
    (rack_location : String) (expiry_date : Option String) : DB :=
  let upd := inboundUpd it category quantity min_stock rack_location expiry_date db.now
  { db with items := updateItemsById db.items it.id upd }

/-- The row `upsert_item`'s insert branch writes (`name` already trimmed). -/
def freshItem (db : DB) (name category unit : String) (quantity min_stock : ℚ)
    (rack_location : String) (expiry_date : Option String) : Item :=
  { id := db.nextId, name := name, category := category,
    unit := unit, quantity := quantity, min_stock := min_stock,
    rack_location := rack_location, expiry_date := expiry_date,
    created_at := db.now, updated_at := db.now }

/-- The store after `upsert_item`'s insert branch (`name` already trimmed). -/
def upsertInsertedDB (db : DB) (name category unit : String) (quantity min_stock : ℚ)
    (rack_location : String) (expiry_date : Option String) : DB :=
  let fresh := freshItem db name category unit quantity min_stock rack_location expiry_date
  { db with items := db.items ++ [fresh], nextId := db.nextId + 1 }

/-- `upsert_item`: find by (trimmed name, unit); add to the quantity and
overwrite the metadata if found, else insert a fresh row.  Returns the
resolved item id and the new store. -/
def upsert_item (db : DB) (name category unit : String) (quantity : ℚ)
    (min_stock : ℚ) (rack_location : String) (expiry_date : Option String) :
    Nat × DB :=
  match findItem db.items (pyStrip name) unit with
  | some it =>
      (it.id, upsertUpdatedDB db it category quantity min_stock rack_location expiry_date)
  | none =>
      (db.nextId, upsertInsertedDB db (pyStrip name) category unit quantity min_stock rack_location expiry_date)

/-- The column values written by `adjust_item_for_out`'s update: the new
quantity is computed from the fetched row `it`. -/
def outboundUpd (it : Item) (quantity : ℚ) (now : Nat) (x : Item) : Item :=
  { x with quantity := it.quantity - quantity, updated_at := now }

/-- The store after `adjust_item_for_out`'s successful decrement. -/
def adjustUpdatedDB (db : DB) (it : Item) (quantity : ℚ) : DB :=
  { db with items := updateItemsById db.items it.id (outboundUpd it quantity db.now) }

/-- `adjust_item_for_out`: find by (name, unit) — no trimming here; error if
absent or short on stock, else decrement and refresh `updated_at`.
Returns `(item_id?, error?, new store)`. -/
def adjust_item_for_out (db : DB) (name unit : String) (quantity : ℚ) :
    Option Nat × Option String × DB :=
  match findItem db.items name unit with
  | none => (none, some "Item tidak ditemukan", db)
  | some it =>
      if it.quantity < quantity then
        (none, some "Stok tidak cukup", db)
      else
        (some it.id, none, adjustUpdatedDB db it quantity)

/-- `add_transaction_record`: append one row to `transactions`. -/
def add_transaction_record (db : DB) (trx_type : String) (item_id : Option Nat)
    (name : String) (quantity : ℚ) (unit : String)
    (requester supplier : Option String) (note bundle_code trx_code : String)
    (expiry_date : Option String) : DB :=
  let row : Trx :=
    { trx_type := trx_type, item_id := item_id, name := name,
      quantity := quantity, unit := unit, requester := requester,
      supplier := supplier, note := note, bundle_code := bundle_code,
      trx_code := trx_code, expiry_date := expiry_date, created_at := db.now }
  { db with transactions := db.transactions ++ [row] }

/-! ## Streamlit submit handlers -/

/-- One line of the multi-item inbound form (`st.session_state.in_multi`);
`expiry_date` is the raw text field, `""` meaning empty. -/
structure InLine where
  name : String
  unit : String
  quantity : ℚ
  category : String
  min_stock : ℚ
  rack_location : String
  expiry_date : String
deriving DecidableEq

/-- One line of the multi-item outbound form (`st.session_state.out_multi`). -/
structure OutLine where
  name : String
  unit : String
  quantity : ℚ
  note : String
deriving DecidableEq

/-- UI / persistence events, in the order the handler produces them. -/
inductive Ev where
  | errorMsg (msg : String)
  | successMsg (msg : String)
  | persisted (name unit : String) (quantity : ℚ)
deriving DecidableEq

/-- A multi-item inbound line failing `not it["name"] or it["quantity"] <= 0
or not it["unit"]`. -/
def badIn (l : InLine) : Prop :=
  l.name = "" ∨ l.quantity ≤ 0 ∨ l.unit = ""

instance : DecidablePred badIn := fun l => by unfold badIn; infer_instance

/-- The `errors` list built by the inbound batch handler, one message per
invalid line, indexed from `i`. -/
def inErrors (i : Nat) : List InLine → List String
  | [] => []
  | l :: ls =>
      if badIn l then
        ("Baris " ++ toString (i + 1) ++ ": Nama, satuan, dan jumlah (>0) harus diisi")
          :: inErrors (i + 1) ls
      else inErrors (i + 1) ls

/-- A multi-item outbound line failing the same completeness check. -/
def badOut (l : OutLine) : Prop :=
  l.name = "" ∨ l.quantity ≤ 0 ∨ l.unit = ""

instance : DecidablePred badOut := fun l => by unfold badOut; infer_instance

/-- The `bad` list built by the outbound batch handler. -/
def outErrors (i : Nat) : List OutLine → List String
  | [] => []
  | l :: ls =>
      if badOut l then
        ("Baris " ++ toString (i + 1) ++ ": Nama, satuan dan jumlah (>0) harus diisi")
          :: outErrors (i + 1) ls
      else outErrors (i + 1) ls

/-- The Python loop variable after a `for` loop: the last element of the
list (or the given default when the list is empty, a case the handler
never reaches). -/
def lastD : List α → α → α
  | [], d => d
  | [x], _ => x
  | _ :: y :: ys, d => lastD (y :: ys) d

/-- `Barang Masuk`, single-item submit (lines 392-400 of the source):
validate, upsert, append one `"in"` transaction whose bundle and trx code
are the same freshly generated code.  Returns the new store and the error
message, if any. -/
def masukSingle (db : DB) (name category unit : String) (qty min_stock : ℚ)
    (rack_location : String) (expiry_date : Option String)
    (supplier : Option String) (rand : Nat) : DB × Option String :=
  if name = "" ∨ qty ≤ 0 ∨ unit = "" then
    (db, some "Nama, jumlah (>0), dan satuan harus diisi")
  else
    let r := upsert_item db name category unit qty min_stock rack_location expiry_date
    let code := generate_trx_code "in" db.now rand
    let db2 := add_transaction_record r.2 "in" (some r.1) name qty unit
      none supplier "Single-item masuk" code code expiry_date
    (db2, none)

/-- Parse of the free-text expiry field in the inbound batch loop:
`pd.to_datetime` on a nonempty string, `None` otherwise.  The parsed value
is opaque to every claim, so a successful parse keeps the text. -/
def parseExpiry (s : String) : Option String :=
  if s = "" then none else some s

/-- `Barang Masuk`, multi-item submit (lines 474-504 of the source),
with its event trace.  Faithful to the source's indentation: the `for`
loop over the lines only computes `exp`; after it, the loop variable holds
the LAST line, the first success message is emitted, and only then is that
single last line upserted and given a transaction row. -/
def masukMulti (db : DB) (lines : List InLine) (supplier note : String)
    (rand : Nat) : DB × List Ev :=
  if lines.isEmpty then
    (db, [.errorMsg "Tidak ada item untuk disimpan"])
  else
    let errs := inErrors 0 lines
    if ¬ errs.isEmpty then
      (db, [.errorMsg (String.intercalate "\n" errs)])
    else
      let code := generate_trx_code "in" db.now rand
      let bundle := code
      let it := lastD lines ⟨"", "", 0, "", 0, "", ""⟩
      let exp := parseExpiry it.expiry_date
      let r := upsert_item db it.name it.category it.unit it.quantity
        it.min_stock it.rack_location exp
      let db2 := add_transaction_record r.2 "in" (some r.1) it.name it.quantity
        it.unit none (some supplier) note bundle code exp
      (db2, [.successMsg "Transaksi berhasil disimpan!",
             .persisted it.name it.unit it.quantity,
             .successMsg ("Sukses menyimpan batch masuk. Trx: " ++ code)])

/-- `Barang Keluar`, single-item submit (lines 527-546 of the source):
validate fields, check stock by a fresh select, then `adjust_item_for_out`
(which re-checks), then append one `"out"` transaction. -/
def keluarSingle (db : DB) (name unit : String) (qty : ℚ)
    (requester note : String) (rand : Nat) : DB × Option String :=
  if name = "" ∨ qty ≤ 0 ∨ unit = "" ∨ requester = "" then
    (db, some "Nama, jumlah (>0), satuan dan nama peminta harus diisi")
  else
    match findItem db.items name unit with
    | none => (db, some "Item tidak ditemukan di inventory")
    | some it =>
        if it.quantity < qty then
          (db, some "Stok tidak cukup")
        else
          let a := adjust_item_for_out db name unit qty
          match a.2.1 with
          | some e => (a.2.2, some e)
          | none =>
              let code := generate_trx_code "out" db.now rand
              let db2 := add_transaction_record a.2.2 "out" a.1 name qty unit
                (some requester) none note code code none
              (db2, none)

/-- The per-line pre-flight check of the outbound batch handler: `some`
reason when the line's item is missing or short on stock in `db`. -/
def outCheck (db : DB) (l : OutLine) : Option (String × String) :=
  match findItem db.items l.name l.unit with
  | none => some (l.name, "Item tidak ditemukan")
  | some it => if it.quantity < l.quantity then some (l.name, "Stok tidak cukup") else none

/-- The `insufficient` list of the outbound batch handler: every line's
pre-flight failure, all evaluated against the same store `db`. -/
def insufficientList (db : DB) (lines : List OutLine) : List (String × String) :=
  lines.filterMap (outCheck db)

/-- The apply loop of the outbound batch handler: for each line,
`adjust_item_for_out` with the ERROR DISCARDED (the source binds it to
`_`), then `add_transaction_record` unconditionally.  The boolean is a
ghost observation recording whether every decrement actually succeeded;
the source does not look at it. -/
def applyOutLines (requester code : String) : DB → List OutLine → DB × Bool
  | db, [] => (db, true)
  | db, l :: ls =>
      let a := adjust_item_for_out db l.name l.unit l.quantity
      let db2 := add_transaction_record a.2.2 "out" a.1 l.name l.quantity l.unit
        (some requester) none l.note code code none
      let rest := applyOutLines requester code db2 ls
      (rest.1, a.2.1.isNone && rest.2)

/-- `Barang Keluar`, multi-item submit (lines 575-608 of the source):
reject empty batch / empty requester / invalid lines; pre-flight every
line against the current store; only then run the apply loop.  Returns
`(new store, error message?, ghost all-decrements-succeeded flag)`. -/
def keluarMulti (db : DB) (lines : List OutLine) (requester note_all : String)
    (rand : Nat) : DB × Option String × Bool :=
  if lines.isEmpty then
    (db, some "Tidak ada item untuk disimpan", true)
  else if requester = "" then
    (db, some "Nama peminta harus diisi", true)
  else
    let bad := outErrors 0 lines
    if ¬ bad.isEmpty then
      (db, some (String.intercalate "\n" bad), true)
    else
      let insufficient := insufficientList db lines
      if ¬ insufficient.isEmpty then
        (db, some "Transaksi ditolak karena stok tidak mencukupi atau item hilang", true)
      else
        let code := generate_trx_code "out" db.now rand
        let r := applyOutLines requester code db lines
        (r.1, none, r.2)

/-! ## Bulk import / reset -/

/-- One spreadsheet row after the per-cell extraction of
`load_inventory_from_excel` (strings stripped, NaN quantity coerced to 0,
unparsable expiry dropped to `none`). -/
structure ImportRow where
  name : String
  quantity : ℚ
  unit : String
  category : String
  min_stock : ℚ
  rack_location : String
  expiry_date : Option String
deriving DecidableEq

/-- The row loop of `load_inventory_from_excel`: one `upsert_item` per row,
NO transaction row is written. -/
def importRows : DB → List ImportRow → DB
  | db, [] => db
  | db, r :: rs =>
      importRows (upsert_item db r.name r.category r.unit r.quantity
        r.min_stock r.rack_location r.expiry_date).2 rs

/-- Python's `str.lower()` on a header cell. -/
def lowerS (s : String) : String :=
  String.mk (s.data.map Char.toLower)

/-- `load_inventory_from_excel`: abort with an error if a required column
is missing from the sheet's (lower-cased) header, else upsert every row
and report the row count. -/
def load_inventory_from_excel (db : DB) (cols : List String)
    (rows : List ImportRow) : Except String (DB × Nat) :=
  let lower := cols.map lowerS
  if "name" ∈ lower ∧ "quantity" ∈ lower ∧ "unit" ∈ lower then
    .ok (importRows db rows, rows.length)
  else
    .error "Excel harus memiliki kolom: name, quantity, unit"

/-- The `Pengaturan` reset handler (lines 699-701 of the source): delete
every transaction (`id ≠ -1` matches every SERIAL id), every item, and
every user whose username is not `"keep_admin"`. -/
def resetDB (db : DB) : DB :=
  { db with transactions := [], items := [],
            users := db.users.filter (fun u => decide (u.username = "keep_admin")) }

/-! ## Reporting aggregator

`load_transactions_df` derives a calendar date from each transaction's
`created_at`; `totals_for_period` buckets that date with
`strftime("%Y-%W")` (weekly) or `strftime("%Y-%m")` (monthly) and then
groups on (bucket, name, unit, trx_type), summing the quantity.  We keep
the bucket as the pair of numbers the zero-padded string encodes. -/

/-- A proleptic Gregorian calendar date (`year ≥ 1`). -/
structure Date where
  year : Nat
  month : Nat
  day : Nat
deriving DecidableEq

/-- Gregorian leap-year test. -/
def isLeap (y : Nat) : Bool :=
  y % 4 == 0 && (y % 100 != 0 || y % 400 == 0)

/-- Length of month `m` (1-12). -/
def monthLength (leap : Bool) (m : Nat) : Nat :=
  match m with
  | 1 => 31 | 2 => if leap then 29 else 28 | 3 => 31 | 4 => 30
  | 5 => 31 | 6 => 30 | 7 => 31 | 8 => 31
  | 9 => 30 | 10 => 31 | 11 => 30 | _ => 31

/-- One-based ordinal of the date within its year (`tm_yday`). -/
def dayOfYear (d : Date) : Nat :=
  d.day + ((List.range (d.month - 1)).map (fun i => monthLength (isLeap d.year) (i + 1))).sum

/-- Rata Die day number: day 1 is 0001-01-01 (a Monday). -/
def rataDie (d : Date) : Nat :=
  365 * (d.year - 1) + (d.year - 1) / 4 + (d.year - 1) / 400 + dayOfYear d - (d.year - 1) / 100

/-- Weekday with Monday = 0 .. Sunday = 6 (`tm_wday` shifted to Monday). -/
def weekdayMon0 (d : Date) : Nat :=
  (rataDie d + 6) % 7

/-- `strftime("%W")`: week of the year counting Monday-started weeks, with
the days before the year's first Monday in week 0. -/
def weekW (d : Date) : Nat :=
  (dayOfYear d + 6 - weekdayMon0 d) / 7

/-- The code's weekly bucket `strftime("%Y-%W")`, kept as (year, week). -/
def weekBucket (d : Date) : Nat × Nat :=
  (d.year, weekW d)

/-- The code's monthly bucket `strftime("%Y-%m")`, kept as (year, month). -/
def monthBucket (d : Date) : Nat × Nat :=
  (d.year, d.month)

/-- Raw ISO week index before year adjustment. -/
def isoWeekRaw (d : Date) : Nat :=
  (dayOfYear d + 9 - weekdayMon0 d) / 7

/-- Whether ISO year `y` has 53 weeks: Jan 1 falls on Thursday, or on
Wednesday in a leap year. -/
def isoLongYear (y : Nat) : Bool :=
  weekdayMon0 ⟨y, 1, 1⟩ == 3 || (isLeap y && weekdayMon0 ⟨y, 1, 1⟩ == 2)

/-- Modelled from the spec: the `(year, ISO-week-number)` bucket the spec
says the weekly report uses (`datetime.isocalendar` semantics). -/
def isoWeekBucket (d : Date) : Nat × Nat :=
  let w := isoWeekRaw d
  if w = 0 then (d.year - 1, if isoLongYear (d.year - 1) then 53 else 52)
  else if w = 53 ∧ ¬ isoLongYear d.year then (d.year + 1, 1)
  else (d.year, w)

/-- One row of the transactions dataframe as `totals_for_period` sees it:
the grouping columns plus the derived calendar date. -/
structure MovementRow where
  name : String
  unit : String
  trx_type : String
  quantity : ℚ
  date : Date
deriving DecidableEq

/-- Grouping key of a row under a given date-bucketing function. -/
def rowKey (bucket : Date → Nat × Nat) (r : MovementRow) :
    (Nat × Nat) × String × String × String :=
  (bucket r.date, r.name, r.unit, r.trx_type)

/-- Sum of the quantities of the rows matching a predicate. -/
def sumQty (rows : List MovementRow) (p : MovementRow → Bool) : ℚ :=
  (rows.filter p).foldr (fun r a => r.quantity + a) 0

/-- `groupby([...])["quantity"].sum()`: one output row per distinct key,
carrying the sum of the matching quantities. -/
def groupTotals (bucket : Date → Nat × Nat) (rows : List MovementRow) :
    List (((Nat × Nat) × String × String × String) × ℚ) :=
  ((rows.map (rowKey bucket)).dedup).map
    (fun k => (k, sumQty rows (fun r => decide (rowKey bucket r = k))))

/-- `totals_for_period`: empty result on empty input or an unknown period
code; weekly grouping under `%Y-%W`, monthly under `%Y-%m`. -/
def totals_for_period (rows : List MovementRow) (period : String) :
    List (((Nat × Nat) × String × String × String) × ℚ) :=
  if rows.isEmpty then []
  else if period = "W" then groupTotals weekBucket rows
  else if period = "M" then groupTotals monthBucket rows
  else []

/-! ## Invariants and observation functions -/

/-- Every stored quantity is non-negative. -/
def Nonneg (db : DB) : Prop :=
  ∀ it ∈ db.items, 0 ≤ it.quantity

instance : DecidablePred Nonneg := fun db => by unfold Nonneg; infer_instance

/-- Store well-formedness: item ids are distinct and below the SERIAL
counter.  Holds for the empty store and is preserved by every operation. -/
def WF (db : DB) : Prop :=
  (db.items.map Item.id).Nodup ∧ ∀ it ∈ db.items, it.id < db.nextId

instance : DecidablePred WF := fun db => by unfold WF; infer_instance

/-- Quantity the store reports for key (n, u): the first matching row's
quantity, `0` when there is none. -/
def itemQty (items : List Item) (n u : String) : ℚ :=
  match findItem items n u with
  | some it => it.quantity
  | none => 0

/-- The signed contribution of one transaction row to its item's stock. -/
def trxVal (t : Trx) : ℚ :=
  if t.trx_type = "in" then t.quantity
  else if t.trx_type = "out" then -t.quantity
  else 0

/-- Net movement recorded in the transaction log for key (n, u). -/
def trxSum : List Trx → String → String → ℚ
  | [], _, _ => 0
  | t :: ts, n, u =>
      (if t.name = n ∧ t.unit = u then trxVal t else 0) + trxSum ts n u

/-- The ledger invariant: for every key, the stored quantity equals the
net movement in the log. -/
def LedgerInv (db : DB) : Prop :=
  ∀ n u, itemQty db.items n u = trxSum db.transactions n u

/-! ## Lemmas about the store primitives -/

theorem findItem_mem {items : List Item} {n u : String} {it : Item}
    (h : findItem items n u = some it) : it ∈ items := by
  induction items with
  | nil => simp [findItem] at h
  | cons x xs ih =>
      unfold findItem at h
      split at h
      · simp_all
      · exact List.mem_cons_of_mem _ (ih h)

theorem findItem_key {items : List Item} {n u : String} {it : Item}
    (h : findItem items n u = some it) : it.name = n ∧ it.unit = u := by
  induction items with
  | nil => simp [findItem] at h
  | cons x xs ih =>
      unfold findItem at h
      split at h
      · cases h; simp_all
      · exact ih h

theorem updateItemsById_id_map (items : List Item) (i : Nat) {f : Item → Item}
    (hf : ∀ x, (f x).id = x.id) :
    (updateItemsById items i f).map Item.id = items.map Item.id := by
  unfold updateItemsById
  rw [List.map_map]
  refine List.map_congr_left ?_
  intro x _
  by_cases hx : x.id = i <;> simp [hx, hf]


theorem updateItemsById_cons (x : Item) (xs : List Item) (i : Nat) (f : Item → Item) :
    updateItemsById (x :: xs) i f =
      (if x.id = i then f x else x) :: updateItemsById xs i f := rfl

theorem findItem_cons (x : Item) (xs : List Item) (n u : String) :
    findItem (x :: xs) n u =
      if x.name = n ∧ x.unit = u then some x else findItem xs n u := rfl

theorem trxSum_cons (t : Trx) (ts : List Trx) (n u : String) :
    trxSum (t :: ts) n u =
      (if t.name = n ∧ t.unit = u then trxVal t else 0) + trxSum ts n u := rfl

theorem updateItemsById_of_not_mem {items : List Item} {i : Nat} {f : Item → Item}
    (h : ∀ y ∈ items, y.id ≠ i) : updateItemsById items i f = items := by
  induction items with
  | nil => rfl
  | cons x xs ih =>
      rw [updateItemsById_cons, if_neg (h x (List.mem_cons_self x xs)),
        ih (fun y hy => h y (List.mem_cons_of_mem x hy))]

theorem findItem_update_self {items : List Item} {n u : String} {it : Item}
    {f : Item → Item}
    (hnd : (items.map Item.id).Nodup)
    (h : findItem items n u = some it)
    (hname : (f it).name = n) (hunit : (f it).unit = u) :
    findItem (updateItemsById items it.id f) n u = some (f it) := by
  induction items with
  | nil => simp [findItem] at h
  | cons x xs ih =>
      rw [List.map_cons, List.nodup_cons] at hnd
      rw [findItem_cons] at h
      rw [updateItemsById_cons]
      by_cases hx : x.name = n ∧ x.unit = u
      · rw [if_pos hx] at h
        injection h with h
        subst h
        rw [if_pos rfl, findItem_cons, if_pos ⟨hname, hunit⟩]
      · rw [if_neg hx] at h
        have hmem : it ∈ xs := findItem_mem h
        have hne : x.id ≠ it.id := fun hid =>
          hnd.1 (hid ▸ List.mem_map_of_mem Item.id hmem)
        rw [if_neg hne, findItem_cons, if_neg hx]
        exact ih hnd.2 h

theorem findItem_update_other {items : List Item} {n u : String} {it : Item}
    {f : Item → Item}
    (hnd : (items.map Item.id).Nodup)
    (hmem : it ∈ items)
    (hname : (f it).name = it.name) (hunit : (f it).unit = it.unit)
    (hne : ¬ (it.name = n ∧ it.unit = u)) :
    findItem (updateItemsById items it.id f) n u = findItem items n u := by
  induction items with
  | nil => rfl
  | cons x xs ih =>
      rw [List.map_cons, List.nodup_cons] at hnd
      rw [updateItemsById_cons]
      rcases List.mem_cons.mp hmem with hx | hx
      · have hupd : updateItemsById xs it.id f = xs := by
          refine updateItemsById_of_not_mem ?_
          intro y hy hyid
          refine hnd.1 ?_
          rw [← hx, ← hyid]
          exact List.mem_map_of_mem Item.id hy
        rw [hupd, ← hx, if_pos rfl, findItem_cons, findItem_cons]
        have hfx : ¬ ((f it).name = n ∧ (f it).unit = u) := by
          rw [hname, hunit]; exact hne
        rw [if_neg hfx, if_neg (hx ▸ hne)]
  -- (the two tails coincide, so both scans continue identically)
      · have hxid : x.id ≠ it.id := fun h =>
          hnd.1 (h ▸ List.mem_map_of_mem Item.id hx)
        rw [if_neg hxid, findItem_cons, findItem_cons]
        by_cases hxm : x.name = n ∧ x.unit = u
        · rw [if_pos hxm, if_pos hxm]
        · rw [if_neg hxm, if_neg hxm]
          exact ih hnd.2 hx

theorem findItem_append (items : List Item) (x : Item) (n u : String) :
    findItem (items ++ [x]) n u =
      match findItem items n u with
      | some y => some y
      | none => if x.name = n ∧ x.unit = u then some x else none := by
  induction items with
  | nil => rfl
  | cons y ys ih =>
      rw [List.cons_append, findItem_cons, findItem_cons]
      by_cases hy : y.name = n ∧ y.unit = u
      · rw [if_pos hy, if_pos hy]
      · rw [if_neg hy, if_neg hy]
        exact ih

theorem trxSum_append (a b : List Trx) (n u : String) :
    trxSum (a ++ b) n u = trxSum a n u + trxSum b n u := by
  induction a with
  | nil => simp [trxSum]
  | cons t ts ih =>
      rw [List.cons_append, trxSum_cons, trxSum_cons, ih, add_assoc]


/-! ## Characterisation of `upsert_item` -/

theorem upsert_item_found {db : DB} {name category unit : String} {q ms : ℚ}
    {rack : String} {exp : Option String} {it : Item}
    (h : findItem db.items (pyStrip name) unit = some it) :
    upsert_item db name category unit q ms rack exp =
      (it.id, upsertUpdatedDB db it category q ms rack exp) := by
  unfold upsert_item
  rw [h]

theorem upsert_item_absent {db : DB} {name category unit : String} {q ms : ℚ}
    {rack : String} {exp : Option String}
    (h : findItem db.items (pyStrip name) unit = none) :
    upsert_item db name category unit q ms rack exp =
      (db.nextId, upsertInsertedDB db (pyStrip name) category unit q ms rack exp) := by
  unfold upsert_item
  rw [h]

theorem upsertUpdatedDB_items (db : DB) (it : Item) (category : String)
    (q ms : ℚ) (rack : String) (exp : Option String) :
    (upsertUpdatedDB db it category q ms rack exp).items =
      updateItemsById db.items it.id (inboundUpd it category q ms rack exp db.now) := rfl

theorem upsertInsertedDB_items (db : DB) (name category unit : String)
    (q ms : ℚ) (rack : String) (exp : Option String) :
    (upsertInsertedDB db name category unit q ms rack exp).items =
      db.items ++ [freshItem db name category unit q ms rack exp] := rfl

theorem upsert_item_transactions (db : DB) (name category unit : String)
    (q ms : ℚ) (rack : String) (exp : Option String) :
    (upsert_item db name category unit q ms rack exp).2.transactions = db.transactions := by
  unfold upsert_item
  cases h : findItem db.items (pyStrip name) unit <;> rfl

theorem upsert_item_now (db : DB) (name category unit : String)
    (q ms : ℚ) (rack : String) (exp : Option String) :
    (upsert_item db name category unit q ms rack exp).2.now = db.now := by
  unfold upsert_item
  cases h : findItem db.items (pyStrip name) unit <;> rfl

theorem inboundUpd_id (it : Item) (category : String) (q ms : ℚ) (rack : String)
    (exp : Option String) (now : Nat) (x : Item) :
    (inboundUpd it category q ms rack exp now x).id = x.id := rfl

/-- The stored quantity at the upserted key grows by exactly `q`. -/
theorem upsert_item_qty (db : DB) (name category unit : String) (q ms : ℚ)
    (rack : String) (exp : Option String)
    (hnd : (db.items.map Item.id).Nodup) :
    itemQty (upsert_item db name category unit q ms rack exp).2.items (pyStrip name) unit =
      itemQty db.items (pyStrip name) unit + q := by
  cases h : findItem db.items (pyStrip name) unit with
  | some it =>
      rw [upsert_item_found h]
      have hkey := findItem_key h
      have hup := findItem_update_self
        (f := inboundUpd it category q ms rack exp db.now) hnd h hkey.1 hkey.2
      unfold itemQty
      rw [upsertUpdatedDB_items, hup, h]
      rfl
  | none =>
      rw [upsert_item_absent h]
      unfold itemQty
      rw [upsertInsertedDB_items, findItem_append, h]
      simp [freshItem]

/-- Stored quantities at every other key are untouched by the upsert. -/
theorem upsert_item_qty_other (db : DB) (name category unit : String) (q ms : ℚ)
    (rack : String) (exp : Option String) (n u : String)
    (hnd : (db.items.map Item.id).Nodup)
    (hne : ¬ ((pyStrip name) = n ∧ unit = u)) :
    itemQty (upsert_item db name category unit q ms rack exp).2.items n u =
      itemQty db.items n u := by
  cases h : findItem db.items (pyStrip name) unit with
  | some it =>
      rw [upsert_item_found h]
      have hkey := findItem_key h
      unfold itemQty
      rw [upsertUpdatedDB_items, findItem_update_other hnd (findItem_mem h) rfl rfl
        (by rw [hkey.1, hkey.2]; exact hne)]
  | none =>
      rw [upsert_item_absent h]
      unfold itemQty
      rw [upsertInsertedDB_items, findItem_append]
      cases hf : findItem db.items n u with
      | some y => rfl
      | none => simp [freshItem, hne]

theorem upsert_item_WF (db : DB) (name category unit : String) (q ms : ℚ)
    (rack : String) (exp : Option String) (hwf : WF db) :
    WF (upsert_item db name category unit q ms rack exp).2 := by
  cases h : findItem db.items (pyStrip name) unit with
  | some it =>
      rw [upsert_item_found h]
      refine ⟨?_, ?_⟩
      · show ((updateItemsById db.items it.id _).map Item.id).Nodup
        rw [updateItemsById_id_map _ _ (inboundUpd_id it category q ms rack exp db.now)]
        exact hwf.1
      · intro x hx
        rcases List.mem_map.mp hx with ⟨y, hy, hxy⟩
        have hid : x.id = y.id := by
          subst hxy
          by_cases hyid : y.id = it.id <;> simp [hyid, inboundUpd_id]
        show x.id < db.nextId
        rw [hid]
        exact hwf.2 y hy
  | none =>
      rw [upsert_item_absent h]
      refine ⟨?_, ?_⟩
      · show ((db.items ++ [freshItem db (pyStrip name) category unit q ms rack exp]).map Item.id).Nodup
        rw [List.map_append, List.nodup_append]
        refine ⟨hwf.1, List.nodup_singleton _, ?_⟩
        intro a ha hb
        simp only [List.map_cons, List.map_nil, List.mem_singleton] at hb
        rcases List.mem_map.mp ha with ⟨y, hy, hya⟩
        have := hwf.2 y hy
        have : a = db.nextId := hb
        omega
      · intro x hx
        rcases List.mem_append.mp hx with hx | hx
        · have := hwf.2 x hx
          show x.id < db.nextId + 1
          omega
        · simp only [List.mem_singleton] at hx
          subst hx
          show db.nextId < db.nextId + 1
          omega

theorem upsert_item_nonneg (db : DB) (name category unit : String) (q ms : ℚ)
    (rack : String) (exp : Option String)
    (hnn : ∀ it ∈ db.items, 0 ≤ it.quantity) (hq : 0 ≤ q) :
    ∀ it ∈ (upsert_item db name category unit q ms rack exp).2.items, 0 ≤ it.quantity := by
  cases h : findItem db.items (pyStrip name) unit with
  | some it =>
      rw [upsert_item_found h]
      intro x hx
      rw [upsertUpdatedDB_items] at hx
      rcases List.mem_map.mp hx with ⟨y, hy, hxy⟩
      subst hxy
      by_cases hyid : y.id = it.id
      · have h0 : 0 ≤ it.quantity := hnn it (findItem_mem h)
        simp only [hyid, if_pos rfl]
        show 0 ≤ it.quantity + q
        positivity
      · simp only [if_neg hyid]
        exact hnn y hy
  | none =>
      rw [upsert_item_absent h]
      intro x hx
      rw [upsertInsertedDB_items] at hx
      rcases List.mem_append.mp hx with hx | hx
      · exact hnn x hx
      · simp only [List.mem_singleton] at hx
        subst hx
        exact hq

/-! ## Characterisation of `adjust_item_for_out` -/

theorem adjust_absent {db : DB} {name unit : String} {q : ℚ}
    (h : findItem db.items name unit = none) :
    adjust_item_for_out db name unit q = (none, some "Item tidak ditemukan", db) := by
  unfold adjust_item_for_out
  rw [h]

theorem adjust_short {db : DB} {name unit : String} {q : ℚ} {it : Item}
    (h : findItem db.items name unit = some it) (hlt : it.quantity < q) :
    adjust_item_for_out db name unit q = (none, some "Stok tidak cukup", db) := by
  simp only [adjust_item_for_out, h, if_pos hlt]

theorem adjust_found {db : DB} {name unit : String} {q : ℚ} {it : Item}
    (h : findItem db.items name unit = some it) (hge : ¬ it.quantity < q) :
    adjust_item_for_out db name unit q = (some it.id, none, adjustUpdatedDB db it q) := by
  simp only [adjust_item_for_out, h, if_neg hge]

theorem outboundUpd_id (it : Item) (q : ℚ) (now : Nat) (x : Item) :
    (outboundUpd it q now x).id = x.id := rfl

theorem adjustUpdatedDB_items (db : DB) (it : Item) (q : ℚ) :
    (adjustUpdatedDB db it q).items =
      updateItemsById db.items it.id (outboundUpd it q db.now) := rfl

/-- The stored quantity at the adjusted key drops by exactly `q`. -/
theorem adjust_qty {db : DB} {name unit : String} {q : ℚ} {it : Item}
    (hnd : (db.items.map Item.id).Nodup)
    (h : findItem db.items name unit = some it) (hge : ¬ it.quantity < q) :
    itemQty (adjust_item_for_out db name unit q).2.2.items name unit =
      it.quantity - q := by
  rw [adjust_found h hge]
  have hkey := findItem_key h
  have hup := findItem_update_self (f := outboundUpd it q db.now) hnd h hkey.1 hkey.2
  unfold itemQty
  rw [adjustUpdatedDB_items, hup]
  rfl

/-- Stored quantities at every other key are untouched by the adjust. -/
theorem adjust_qty_other {db : DB} {name unit : String} {q : ℚ} {it : Item}
    (hnd : (db.items.map Item.id).Nodup)
    (h : findItem db.items name unit = some it) (hge : ¬ it.quantity < q)
    (n u : String) (hne : ¬ (name = n ∧ unit = u)) :
    itemQty (adjust_item_for_out db name unit q).2.2.items n u = itemQty db.items n u := by
  rw [adjust_found h hge]
  have hkey := findItem_key h
  unfold itemQty
  rw [adjustUpdatedDB_items, findItem_update_other hnd (findItem_mem h) rfl rfl
    (by rw [hkey.1, hkey.2]; exact hne)]

/-- The first matching row after a successful adjust: quantity decremented
and `updated_at` refreshed to the current clock. -/
theorem adjust_find_after {db : DB} {name unit : String} {q : ℚ} {it : Item}
    (hnd : (db.items.map Item.id).Nodup)
    (h : findItem db.items name unit = some it) (hge : ¬ it.quantity < q) :
    findItem (adjust_item_for_out db name unit q).2.2.items name unit =
      some (outboundUpd it q db.now it) := by
  rw [adjust_found h hge]
  have hkey := findItem_key h
  rw [adjustUpdatedDB_items]
  exact findItem_update_self hnd h hkey.1 hkey.2

theorem adjust_WF (db : DB) (name unit : String) (q : ℚ) (hwf : WF db) :
    WF (adjust_item_for_out db name unit q).2.2 := by
  cases h : findItem db.items name unit with
  | none => rw [adjust_absent h]; exact hwf
  | some it =>
      by_cases hlt : it.quantity < q
      · rw [adjust_short h hlt]; exact hwf
      · rw [adjust_found h hlt]
        refine ⟨?_, ?_⟩
        · show ((updateItemsById db.items it.id _).map Item.id).Nodup
          rw [updateItemsById_id_map _ _ (outboundUpd_id it q db.now)]
          exact hwf.1
        · intro x hx
          rw [adjustUpdatedDB_items] at hx
          rcases List.mem_map.mp hx with ⟨y, hy, hxy⟩
          have hid : x.id = y.id := by
            subst hxy
            by_cases hyid : y.id = it.id <;> simp [hyid, outboundUpd_id]
          show x.id < db.nextId
          rw [hid]
          exact hwf.2 y hy

theorem adjust_nonneg (db : DB) (name unit : String) (q : ℚ)
    (hnn : ∀ it ∈ db.items, 0 ≤ it.quantity) :
    ∀ it ∈ (adjust_item_for_out db name unit q).2.2.items, 0 ≤ it.quantity := by
  cases h : findItem db.items name unit with
  | none => rw [adjust_absent h]; exact hnn
  | some it =>
      by_cases hlt : it.quantity < q
      · rw [adjust_short h hlt]; exact hnn
      · rw [adjust_found h hlt]
        intro x hx
        rw [adjustUpdatedDB_items] at hx
        rcases List.mem_map.mp hx with ⟨y, hy, hxy⟩
        subst hxy
        by_cases hyid : y.id = it.id
        · simp only [hyid, if_pos rfl]
          show 0 ≤ it.quantity - q
          have := not_lt.mp hlt
          linarith
        · simp only [if_neg hyid]
          exact hnn y hy

theorem adjust_transactions (db : DB) (name unit : String) (q : ℚ) :
    (adjust_item_for_out db name unit q).2.2.transactions = db.transactions := by
  cases h : findItem db.items name unit with
  | none => rw [adjust_absent h]
  | some it =>
      by_cases hlt : it.quantity < q
      · rw [adjust_short h hlt]
      · rw [adjust_found h hlt]; rfl

theorem adjust_now (db : DB) (name unit : String) (q : ℚ) :
    (adjust_item_for_out db name unit q).2.2.now = db.now := by
  cases h : findItem db.items name unit with
  | none => rw [adjust_absent h]
  | some it =>
      by_cases hlt : it.quantity < q
      · rw [adjust_short h hlt]
      · rw [adjust_found h hlt]; rfl

/-! ## `add_transaction_record` frame facts -/

theorem addTrx_items (db : DB) (tt : String) (iid : Option Nat) (n : String)
    (q : ℚ) (u : String) (r s : Option String) (note b c : String)
    (e : Option String) :
    (add_transaction_record db tt iid n q u r s note b c e).items = db.items := rfl

theorem addTrx_now (db : DB) (tt : String) (iid : Option Nat) (n : String)
    (q : ℚ) (u : String) (r s : Option String) (note b c : String)
    (e : Option String) :
    (add_transaction_record db tt iid n q u r s note b c e).now = db.now := rfl

theorem addTrx_transactions (db : DB) (tt : String) (iid : Option Nat) (n : String)
    (q : ℚ) (u : String) (r s : Option String) (note b c : String)
    (e : Option String) :
    (add_transaction_record db tt iid n q u r s note b c e).transactions =
      db.transactions ++
        [{ trx_type := tt, item_id := iid, name := n, quantity := q, unit := u,
           requester := r, supplier := s, note := note, bundle_code := b,
           trx_code := c, expiry_date := e, created_at := db.now }] := rfl

theorem addTrx_WF (db : DB) (tt : String) (iid : Option Nat) (n : String)
    (q : ℚ) (u : String) (r s : Option String) (note b c : String)
    (e : Option String) (hwf : WF db) :
    WF (add_transaction_record db tt iid n q u r s note b c e) := hwf

theorem addTrx_nonneg (db : DB) (tt : String) (iid : Option Nat) (n : String)
    (q : ℚ) (u : String) (r s : Option String) (note b c : String)
    (e : Option String) (hnn : ∀ it ∈ db.items, 0 ≤ it.quantity) :
    ∀ it ∈ (add_transaction_record db tt iid n q u r s note b c e).items,
      0 ≤ it.quantity := hnn

/-! ## Validation-list lemmas -/

theorem inErrors_ne_nil {ls : List InLine} {l : InLine} (hmem : l ∈ ls)
    (hbad : badIn l) (i : Nat) : inErrors i ls ≠ [] := by
  induction ls generalizing i with
  | nil => cases hmem
  | cons x xs ih =>
      unfold inErrors
      rcases List.mem_cons.mp hmem with hx | hx
      · subst hx
        rw [if_pos hbad]
        exact List.cons_ne_nil _ _
      · by_cases hb : badIn x
        · rw [if_pos hb]
          exact List.cons_ne_nil _ _
        · rw [if_neg hb]
          exact ih hx (i + 1)

theorem inErrors_eq_nil {ls : List InLine} {i : Nat} (h : inErrors i ls = []) :
    ∀ l ∈ ls, ¬ badIn l := by
  intro l hmem hbad
  exact inErrors_ne_nil hmem hbad i h

theorem outErrors_ne_nil {ls : List OutLine} {l : OutLine} (hmem : l ∈ ls)
    (hbad : badOut l) (i : Nat) : outErrors i ls ≠ [] := by
  induction ls generalizing i with
  | nil => cases hmem
  | cons x xs ih =>
      unfold outErrors
      rcases List.mem_cons.mp hmem with hx | hx
      · subst hx
        rw [if_pos hbad]
        exact List.cons_ne_nil _ _
      · by_cases hb : badOut x
        · rw [if_pos hb]
          exact List.cons_ne_nil _ _
        · rw [if_neg hb]
          exact ih hx (i + 1)

theorem outErrors_eq_nil {ls : List OutLine} {i : Nat} (h : outErrors i ls = []) :
    ∀ l ∈ ls, ¬ badOut l := by
  intro l hmem hbad
  exact outErrors_ne_nil hmem hbad i h

theorem insufficientList_ne_nil {db : DB} {lines : List OutLine} {l : OutLine}
    (hmem : l ∈ lines) (hfail : outCheck db l ≠ none) :
    insufficientList db lines ≠ [] := by
  intro hnil
  exact hfail (List.filterMap_eq_nil_iff.mp hnil l hmem)

theorem insufficientList_eq_nil {db : DB} {lines : List OutLine}
    (h : insufficientList db lines = []) : ∀ l ∈ lines, outCheck db l = none := by
  exact List.filterMap_eq_nil_iff.mp h

/-- A clean pre-flight pass: the line's item exists and covers it. -/
theorem outCheck_eq_none {db : DB} {l : OutLine} (h : outCheck db l = none) :
    ∃ it, findItem db.items l.name l.unit = some it ∧ ¬ it.quantity < l.quantity := by
  cases hf : findItem db.items l.name l.unit with
  | none => simp only [outCheck, hf] at h; cases h
  | some it =>
      simp only [outCheck, hf] at h
      by_cases hlt : it.quantity < l.quantity
      · rw [if_pos hlt] at h; cases h
      · exact ⟨it, rfl, hlt⟩

theorem lastD_mem {ls : List α} (h : ls ≠ []) (d : α) : lastD ls d ∈ ls := by
  induction ls with
  | nil => exact absurd rfl h
  | cons x xs ih =>
      cases xs with
      | nil => simp [lastD]
      | cons y ys =>
          unfold lastD
          exact List.mem_cons_of_mem x (ih (List.cons_ne_nil y ys))

/-! ## Handler branch equations -/

theorem masukSingle_invalid {db : DB} {name category unit : String} {qty ms : ℚ}
    {rack : String} {exp sup : Option String} {rand : Nat}
    (h : name = "" ∨ qty ≤ 0 ∨ unit = "") :
    masukSingle db name category unit qty ms rack exp sup rand =
      (db, some "Nama, jumlah (>0), dan satuan harus diisi") := by
  simp only [masukSingle, if_pos h]

theorem masukSingle_valid {db : DB} {name category unit : String} {qty ms : ℚ}
    {rack : String} {exp sup : Option String} {rand : Nat}
    (h : ¬ (name = "" ∨ qty ≤ 0 ∨ unit = "")) :
    masukSingle db name category unit qty ms rack exp sup rand =
      (add_transaction_record (upsert_item db name category unit qty ms rack exp).2
        "in" (some (upsert_item db name category unit qty ms rack exp).1) name qty unit
        none sup "Single-item masuk" (generate_trx_code "in" db.now rand)
        (generate_trx_code "in" db.now rand) exp, none) := by
  simp only [masukSingle, if_neg h]

theorem masukMulti_noLines {db : DB} {lines : List InLine} {sup note : String}
    {rand : Nat} (h : lines.isEmpty = true) :
    masukMulti db lines sup note rand =
      (db, [.errorMsg "Tidak ada item untuk disimpan"]) := by
  simp only [masukMulti, h, if_pos trivial]

theorem masukMulti_invalid {db : DB} {lines : List InLine} {sup note : String}
    {rand : Nat} (hne : lines.isEmpty = false) (h : inErrors 0 lines ≠ []) :
    masukMulti db lines sup note rand =
      (db, [.errorMsg (String.intercalate "\n" (inErrors 0 lines))]) := by
  simp only [masukMulti, hne]
  simp [h]

/-- The success branch of the inbound batch handler, written out: only the
LAST line is upserted and logged, and the first success message precedes
the persistence event. -/
theorem masukMulti_valid {db : DB} {lines : List InLine} {sup note : String}
    {rand : Nat} (hne : lines.isEmpty = false) (h : inErrors 0 lines = []) :
    masukMulti db lines sup note rand =
      (add_transaction_record
          (upsert_item db (lastD lines ⟨"", "", 0, "", 0, "", ""⟩).name
            (lastD lines ⟨"", "", 0, "", 0, "", ""⟩).category
            (lastD lines ⟨"", "", 0, "", 0, "", ""⟩).unit
            (lastD lines ⟨"", "", 0, "", 0, "", ""⟩).quantity
            (lastD lines ⟨"", "", 0, "", 0, "", ""⟩).min_stock
            (lastD lines ⟨"", "", 0, "", 0, "", ""⟩).rack_location
            (parseExpiry (lastD lines ⟨"", "", 0, "", 0, "", ""⟩).expiry_date)).2
          "in"
          (some (upsert_item db (lastD lines ⟨"", "", 0, "", 0, "", ""⟩).name
            (lastD lines ⟨"", "", 0, "", 0, "", ""⟩).category
            (lastD lines ⟨"", "", 0, "", 0, "", ""⟩).unit
            (lastD lines ⟨"", "", 0, "", 0, "", ""⟩).quantity
            (lastD lines ⟨"", "", 0, "", 0, "", ""⟩).min_stock
            (lastD lines ⟨"", "", 0, "", 0, "", ""⟩).rack_location
            (parseExpiry (lastD lines ⟨"", "", 0, "", 0, "", ""⟩).expiry_date)).1)
          (lastD lines ⟨"", "", 0, "", 0, "", ""⟩).name
          (lastD lines ⟨"", "", 0, "", 0, "", ""⟩).quantity
          (lastD lines ⟨"", "", 0, "", 0, "", ""⟩).unit
          none (some sup) note (generate_trx_code "in" db.now rand)
          (generate_trx_code "in" db.now rand)
          (parseExpiry (lastD lines ⟨"", "", 0, "", 0, "", ""⟩).expiry_date),
        [.successMsg "Transaksi berhasil disimpan!",
         .persisted (lastD lines ⟨"", "", 0, "", 0, "", ""⟩).name
           (lastD lines ⟨"", "", 0, "", 0, "", ""⟩).unit
           (lastD lines ⟨"", "", 0, "", 0, "", ""⟩).quantity,
         .successMsg ("Sukses menyimpan batch masuk. Trx: " ++
           generate_trx_code "in" db.now rand)]) := by
  simp only [masukMulti, hne]
  simp [h]

theorem keluarSingle_invalid {db : DB} {name unit : String} {qty : ℚ}
    {requester note : String} {rand : Nat}
    (h : name = "" ∨ qty ≤ 0 ∨ unit = "" ∨ requester = "") :
    keluarSingle db name unit qty requester note rand =
      (db, some "Nama, jumlah (>0), satuan dan nama peminta harus diisi") := by
  simp only [keluarSingle, if_pos h]

theorem keluarSingle_absent {db : DB} {name unit : String} {qty : ℚ}
    {requester note : String} {rand : Nat}
    (hv : ¬ (name = "" ∨ qty ≤ 0 ∨ unit = "" ∨ requester = ""))
    (hf : findItem db.items name unit = none) :
    keluarSingle db name unit qty requester note rand =
      (db, some "Item tidak ditemukan di inventory") := by
  simp only [keluarSingle, if_neg hv, hf]

theorem keluarSingle_short {db : DB} {name unit : String} {qty : ℚ}
    {requester note : String} {rand : Nat} {it : Item}
    (hv : ¬ (name = "" ∨ qty ≤ 0 ∨ unit = "" ∨ requester = ""))
    (hf : findItem db.items name unit = some it) (hlt : it.quantity < qty) :
    keluarSingle db name unit qty requester note rand =
      (db, some "Stok tidak cukup") := by
  simp only [keluarSingle, if_neg hv, hf, if_pos hlt]

theorem keluarSingle_ok {db : DB} {name unit : String} {qty : ℚ}
    {requester note : String} {rand : Nat} {it : Item}
    (hv : ¬ (name = "" ∨ qty ≤ 0 ∨ unit = "" ∨ requester = ""))
    (hf : findItem db.items name unit = some it) (hge : ¬ it.quantity < qty) :
    keluarSingle db name unit qty requester note rand =
      (add_transaction_record (adjust_item_for_out db name unit qty).2.2
        "out" (adjust_item_for_out db name unit qty).1 name qty unit
        (some requester) none note (generate_trx_code "out" db.now rand)
        (generate_trx_code "out" db.now rand) none, none) := by
  simp only [keluarSingle, if_neg hv, hf, if_neg hge, adjust_found hf hge]

theorem applyOutLines_nil (req code : String) (db : DB) :
    applyOutLines req code db [] = (db, true) := rfl

theorem applyOutLines_cons (req code : String) (db : DB) (l : OutLine)
    (ls : List OutLine) :
    applyOutLines req code db (l :: ls) =
      ((applyOutLines req code
          (add_transaction_record (adjust_item_for_out db l.name l.unit l.quantity).2.2
            "out" (adjust_item_for_out db l.name l.unit l.quantity).1
            l.name l.quantity l.unit (some req) none l.note code code none) ls).1,
       (adjust_item_for_out db l.name l.unit l.quantity).2.1.isNone &&
         (applyOutLines req code
          (add_transaction_record (adjust_item_for_out db l.name l.unit l.quantity).2.2
            "out" (adjust_item_for_out db l.name l.unit l.quantity).1
            l.name l.quantity l.unit (some req) none l.note code code none) ls).2) := rfl

theorem keluarMulti_noLines {db : DB} {lines : List OutLine}
    {requester note_all : String} {rand : Nat} (h : lines.isEmpty = true) :
    keluarMulti db lines requester note_all rand =
      (db, some "Tidak ada item untuk disimpan", true) := by
  simp only [keluarMulti, h, if_pos trivial]

theorem keluarMulti_noReq {db : DB} {lines : List OutLine}
    {requester note_all : String} {rand : Nat}
    (hne : lines.isEmpty = false) (hr : requester = "") :
    keluarMulti db lines requester note_all rand =
      (db, some "Nama peminta harus diisi", true) := by
  simp only [keluarMulti, hne]
  simp [hr]

theorem keluarMulti_invalid {db : DB} {lines : List OutLine}
    {requester note_all : String} {rand : Nat}
    (hne : lines.isEmpty = false) (hr : ¬ requester = "")
    (hbad : outErrors 0 lines ≠ []) :
    keluarMulti db lines requester note_all rand =
      (db, some (String.intercalate "\n" (outErrors 0 lines)), true) := by
  simp only [keluarMulti, hne]
  simp [hr, hbad]

theorem keluarMulti_insufficient {db : DB} {lines : List OutLine}
    {requester note_all : String} {rand : Nat}
    (hne : lines.isEmpty = false) (hr : ¬ requester = "")
    (hok : outErrors 0 lines = []) (hins : insufficientList db lines ≠ []) :
    keluarMulti db lines requester note_all rand =
      (db, some "Transaksi ditolak karena stok tidak mencukupi atau item hilang", true) := by
  simp only [keluarMulti, hne]
  simp [hr, hok, hins]

theorem keluarMulti_apply {db : DB} {lines : List OutLine}
    {requester note_all : String} {rand : Nat}
    (hne : lines.isEmpty = false) (hr : ¬ requester = "")
    (hok : outErrors 0 lines = []) (hins : insufficientList db lines = []) :
    keluarMulti db lines requester note_all rand =
      ((applyOutLines requester (generate_trx_code "out" db.now rand) db lines).1, none,
       (applyOutLines requester (generate_trx_code "out" db.now rand) db lines).2) := by
  simp only [keluarMulti, hne]
  simp [hr, hok, hins]

/-! ## Non-negativity preservation, per operation -/

theorem masukSingle_nonneg (db : DB) (name category unit : String) (qty ms : ℚ)
    (rack : String) (exp sup : Option String) (rand : Nat) (hnn : Nonneg db) :
    Nonneg (masukSingle db name category unit qty ms rack exp sup rand).1 := by
  by_cases hv : name = "" ∨ qty ≤ 0 ∨ unit = ""
  · rw [masukSingle_invalid hv]
    exact hnn
  · rw [masukSingle_valid hv]
    intro x hx
    rw [addTrx_items] at hx
    push_neg at hv
    exact upsert_item_nonneg db name category unit qty ms rack exp hnn
      (le_of_lt hv.2.1) x hx

theorem masukMulti_nonneg (db : DB) (lines : List InLine) (sup note : String)
    (rand : Nat) (hnn : Nonneg db) :
    Nonneg (masukMulti db lines sup note rand).1 := by
  cases hne : lines.isEmpty with
  | true => rw [masukMulti_noLines hne]; exact hnn
  | false =>
      by_cases herr : inErrors 0 lines = []
      · rw [masukMulti_valid hne herr]
        intro x hx
        rw [addTrx_items] at hx
        have hlast : lastD lines ⟨"", "", 0, "", 0, "", ""⟩ ∈ lines :=
          lastD_mem (by simpa using hne) _
        have hgood := inErrors_eq_nil herr _ hlast
        unfold badIn at hgood
        push_neg at hgood
        exact upsert_item_nonneg db _ _ _ _ _ _ _ hnn
          (le_of_lt hgood.2.1) x hx
      · rw [masukMulti_invalid hne herr]
        exact hnn

theorem keluarSingle_nonneg (db : DB) (name unit : String) (qty : ℚ)
    (requester note : String) (rand : Nat) (hnn : Nonneg db) :
    Nonneg (keluarSingle db name unit qty requester note rand).1 := by
  by_cases hv : name = "" ∨ qty ≤ 0 ∨ unit = "" ∨ requester = ""
  · rw [keluarSingle_invalid hv]; exact hnn
  · cases hf : findItem db.items name unit with
    | none => rw [keluarSingle_absent hv hf]; exact hnn
    | some it =>
        by_cases hlt : it.quantity < qty
        · rw [keluarSingle_short hv hf hlt]; exact hnn
        · rw [keluarSingle_ok hv hf hlt]
          intro x hx
          rw [addTrx_items] at hx
          exact adjust_nonneg db name unit qty hnn x hx

theorem applyOutLines_nonneg (req code : String) (db : DB) (ls : List OutLine)
    (hnn : Nonneg db) : Nonneg (applyOutLines req code db ls).1 := by
  induction ls generalizing db with
  | nil => rw [applyOutLines_nil]; exact hnn
  | cons l ls ih =>
      rw [applyOutLines_cons]
      refine ih _ ?_
      intro x hx
      rw [addTrx_items] at hx
      exact adjust_nonneg db l.name l.unit l.quantity hnn x hx

theorem keluarMulti_nonneg (db : DB) (lines : List OutLine)
    (requester note_all : String) (rand : Nat) (hnn : Nonneg db) :
    Nonneg (keluarMulti db lines requester note_all rand).1 := by
  cases hne : lines.isEmpty with
  | true => rw [keluarMulti_noLines hne]; exact hnn
  | false =>
      by_cases hr : requester = ""
      · rw [keluarMulti_noReq hne hr]; exact hnn
      · by_cases hbad : outErrors 0 lines = []
        · by_cases hins : insufficientList db lines = []
          · rw [keluarMulti_apply hne hr hbad hins]
            exact applyOutLines_nonneg _ _ db lines hnn
          · rw [keluarMulti_insufficient hne hr hbad hins]; exact hnn
        · rw [keluarMulti_invalid hne hr hbad]; exact hnn

theorem importRows_nonneg (db : DB) (rows : List ImportRow) (hnn : Nonneg db)
    (hrows : ∀ r ∈ rows, 0 ≤ r.quantity) : Nonneg (importRows db rows) := by
  induction rows generalizing db with
  | nil => exact hnn
  | cons r rs ih =>
      show Nonneg (importRows _ rs)
      refine ih _ ?_ (fun x hx => hrows x (List.mem_cons_of_mem r hx))
      exact upsert_item_nonneg db _ _ _ _ _ _ _ hnn (hrows r (List.mem_cons_self r rs))

/-! ## Ledger-invariant step lemmas -/

/-- An inbound upsert followed by its matching `"in"` transaction row keeps
the ledger equality, provided the recorded name carries no surrounding
whitespace (the upsert trims, the transaction row does not). -/
theorem ledgerStep_in (db : DB) (name category unit : String) (q ms : ℚ)
    (rack : String) (exp : Option String) (iid : Option Nat)
    (r s : Option String) (nt b c : String) (e : Option String)
    (hwf : WF db) (hinv : LedgerInv db) (htrim : (pyStrip name) = name) :
    LedgerInv (add_transaction_record (upsert_item db name category unit q ms rack exp).2
      "in" iid name q unit r s nt b c e) := by
  intro n u
  unfold LedgerInv at hinv
  rw [addTrx_items, addTrx_transactions, upsert_item_transactions, trxSum_append]
  have hsingle : ∀ row : Trx, trxSum [row] n u =
      if row.name = n ∧ row.unit = u then trxVal row else 0 := by
    intro row
    rw [trxSum_cons]
    show _ + trxSum [] n u = _
    rw [show trxSum [] n u = 0 from rfl, add_zero]
  rw [hsingle]
  by_cases hk : name = n ∧ unit = u
  · obtain ⟨rfl, rfl⟩ := hk
    have hq := upsert_item_qty db name category unit q ms rack exp hwf.1
    rw [htrim] at hq
    rw [hq, hinv name unit, if_pos ⟨rfl, rfl⟩]
    show _ = _ + (if ("in" : String) = "in" then q else _)
    rw [if_pos rfl]
  · have hq := upsert_item_qty_other db name category unit q ms rack exp n u hwf.1
      (by rw [htrim]; exact hk)
    rw [hq, hinv n u, if_neg (by exact hk), add_zero]

theorem trxSum_single (tt : String) (iid : Option Nat) (nm : String) (q : ℚ)
    (u : String) (r s : Option String) (nt b c : String) (e : Option String)
    (ca : Nat) (n v : String) :
    trxSum [Trx.mk tt iid nm q u r s nt b c e ca] n v =
      if nm = n ∧ u = v then (if tt = "in" then q else if tt = "out" then -q else 0)
      else 0 := by
  rw [trxSum_cons]
  show _ + trxSum [] n v = _
  rw [show trxSum [] n v = 0 from rfl, add_zero]
  rfl

/-- A successful outbound decrement followed by its matching `"out"` row
keeps the ledger equality. -/
theorem ledgerStep_out (db : DB) (name unit : String) (q : ℚ) {it : Item}
    (iid : Option Nat) (r s : Option String) (nt b c : String) (e : Option String)
    (hwf : WF db) (hinv : LedgerInv db)
    (hf : findItem db.items name unit = some it) (hge : ¬ it.quantity < q) :
    LedgerInv (add_transaction_record (adjust_item_for_out db name unit q).2.2
      "out" iid name q unit r s nt b c e) := by
  intro n u
  unfold LedgerInv at hinv
  rw [addTrx_items, addTrx_transactions, adjust_transactions, trxSum_append,
    trxSum_single]
  by_cases hk : name = n ∧ unit = u
  · obtain ⟨rfl, rfl⟩ := hk
    rw [if_pos ⟨rfl, rfl⟩, adjust_qty hwf.1 hf hge,
      if_neg (show ¬ ("out" : String) = "in" by decide), if_pos rfl]
    have hdb : itemQty db.items name unit = it.quantity := by
      unfold itemQty
      rw [hf]
    rw [← hinv name unit, hdb]
    ring
  · rw [if_neg hk, add_zero, adjust_qty_other hwf.1 hf hge n u hk, hinv n u]

/-! ## Well-formedness preservation, per operation -/

theorem masukSingle_WF (db : DB) (name category unit : String) (qty ms : ℚ)
    (rack : String) (exp sup : Option String) (rand : Nat) (hwf : WF db) :
    WF (masukSingle db name category unit qty ms rack exp sup rand).1 := by
  by_cases hv : name = "" ∨ qty ≤ 0 ∨ unit = ""
  · rw [masukSingle_invalid hv]; exact hwf
  · rw [masukSingle_valid hv]
    exact addTrx_WF _ _ _ _ _ _ _ _ _ _ _ _ (upsert_item_WF _ _ _ _ _ _ _ _ hwf)

theorem masukMulti_WF (db : DB) (lines : List InLine) (sup note : String)
    (rand : Nat) (hwf : WF db) :
    WF (masukMulti db lines sup note rand).1 := by
  cases hne : lines.isEmpty with
  | true => rw [masukMulti_noLines hne]; exact hwf
  | false =>
      by_cases herr : inErrors 0 lines = []
      · rw [masukMulti_valid hne herr]
        exact addTrx_WF _ _ _ _ _ _ _ _ _ _ _ _ (upsert_item_WF _ _ _ _ _ _ _ _ hwf)
      · rw [masukMulti_invalid hne herr]; exact hwf

theorem keluarSingle_WF (db : DB) (name unit : String) (qty : ℚ)
    (requester note : String) (rand : Nat) (hwf : WF db) :
    WF (keluarSingle db name unit qty requester note rand).1 := by
  by_cases hv : name = "" ∨ qty ≤ 0 ∨ unit = "" ∨ requester = ""
  · rw [keluarSingle_invalid hv]; exact hwf
  · cases hf : findItem db.items name unit with
    | none => rw [keluarSingle_absent hv hf]; exact hwf
    | some it =>
        by_cases hlt : it.quantity < qty
        · rw [keluarSingle_short hv hf hlt]; exact hwf
        · rw [keluarSingle_ok hv hf hlt]
          exact addTrx_WF _ _ _ _ _ _ _ _ _ _ _ _ (adjust_WF _ _ _ _ hwf)

theorem applyOutLines_WF (req code : String) (db : DB) (ls : List OutLine)
    (hwf : WF db) : WF (applyOutLines req code db ls).1 := by
  induction ls generalizing db with
  | nil => rw [applyOutLines_nil]; exact hwf
  | cons l ls ih =>
      rw [applyOutLines_cons]
      exact ih _ (addTrx_WF _ _ _ _ _ _ _ _ _ _ _ _ (adjust_WF _ _ _ _ hwf))

theorem keluarMulti_WF (db : DB) (lines : List OutLine)
    (requester note_all : String) (rand : Nat) (hwf : WF db) :
    WF (keluarMulti db lines requester note_all rand).1 := by
  cases hne : lines.isEmpty with
  | true => rw [keluarMulti_noLines hne]; exact hwf
  | false =>
      by_cases hr : requester = ""
      · rw [keluarMulti_noReq hne hr]; exact hwf
      · by_cases hbad : outErrors 0 lines = []
        · by_cases hins : insufficientList db lines = []
          · rw [keluarMulti_apply hne hr hbad hins]
            exact applyOutLines_WF _ _ db lines hwf
          · rw [keluarMulti_insufficient hne hr hbad hins]; exact hwf
        · rw [keluarMulti_invalid hne hr hbad]; exact hwf

/-- The outbound apply loop keeps both well-formedness and the ledger
equality as long as its ghost flag stays `true` (every decrement
succeeded). -/
theorem applyOutLines_ledger (req code : String) (db : DB) (ls : List OutLine)
    (hwf : WF db) (hinv : LedgerInv db)
    (hflag : (applyOutLines req code db ls).2 = true) :
    WF (applyOutLines req code db ls).1 ∧ LedgerInv (applyOutLines req code db ls).1 := by
  induction ls generalizing db with
  | nil => rw [applyOutLines_nil]; exact ⟨hwf, hinv⟩
  | cons l ls ih =>
      rw [applyOutLines_cons] at hflag ⊢
      rw [Bool.and_eq_true] at hflag
      rcases hflag with ⟨hnone, hrest⟩
      have herr : (adjust_item_for_out db l.name l.unit l.quantity).2.1 = none :=
        Option.isNone_iff_eq_none.mp hnone
      cases hf : findItem db.items l.name l.unit with
      | none =>
          rw [adjust_absent hf] at herr
          cases herr
      | some it =>
          by_cases hlt : it.quantity < l.quantity
          · rw [adjust_short hf hlt] at herr
            cases herr
          · refine ih _ (addTrx_WF _ _ _ _ _ _ _ _ _ _ _ _ (adjust_WF _ _ _ _ hwf)) ?_ hrest
            exact ledgerStep_out db l.name l.unit l.quantity _ _ _ _ _ _ _ hwf hinv hf hlt

/-! ## The ledger operations as a transition system -/

/-- One submitted ledger operation: single/batch inbound, single/batch
outbound, with all its form fields. -/
inductive LOp where
  | inS (name category unit : String) (qty ms : ℚ) (rack : String)
      (exp sup : Option String) (rand : Nat)
  | inB (lines : List InLine) (sup note : String) (rand : Nat)
  | outS (name unit : String) (qty : ℚ) (requester note : String) (rand : Nat)
  | outB (lines : List OutLine) (requester note_all : String) (rand : Nat)

/-- The store each handler leaves behind. -/
def LOp.apply (db : DB) : LOp → DB
  | .inS name category unit qty ms rack exp sup rand =>
      (masukSingle db name category unit qty ms rack exp sup rand).1
  | .inB lines sup note rand => (masukMulti db lines sup note rand).1
  | .outS name unit qty requester note rand =>
      (keluarSingle db name unit qty requester note rand).1
  | .outB lines requester note_all rand =>
      (keluarMulti db lines requester note_all rand).1

/-- Side conditions under which an operation keeps the ledger equality:
inbound names carry no surrounding whitespace (otherwise the item row is
trimmed but the transaction row is not), and no outbound-batch decrement
fails in the apply phase (otherwise a transaction row is logged without
its decrement). -/
def OpOk (db : DB) : LOp → Prop
  | .inS name _ _ _ _ _ _ _ _ => (pyStrip name) = name
  | .inB lines _ _ _ => ∀ l ∈ lines, (pyStrip l.name) = l.name
  | .outS _ _ _ _ _ _ => True
  | .outB lines requester note_all rand =>
      (keluarMulti db lines requester note_all rand).2.2 = true

theorem step_inS (db : DB) (name category unit : String) (qty ms : ℚ)
    (rack : String) (exp sup : Option String) (rand : Nat)
    (hwf : WF db) (hinv : LedgerInv db) (htrim : (pyStrip name) = name) :
    WF (masukSingle db name category unit qty ms rack exp sup rand).1 ∧
      LedgerInv (masukSingle db name category unit qty ms rack exp sup rand).1 := by
  refine ⟨masukSingle_WF _ _ _ _ _ _ _ _ _ _ hwf, ?_⟩
  by_cases hv : name = "" ∨ qty ≤ 0 ∨ unit = ""
  · rw [masukSingle_invalid hv]; exact hinv
  · rw [masukSingle_valid hv]
    exact ledgerStep_in db name category unit qty ms rack exp _ _ _ _ _ _ _ hwf hinv htrim

theorem step_inB (db : DB) (lines : List InLine) (sup note : String) (rand : Nat)
    (hwf : WF db) (hinv : LedgerInv db)
    (htrim : ∀ l ∈ lines, (pyStrip l.name) = l.name) :
    WF (masukMulti db lines sup note rand).1 ∧
      LedgerInv (masukMulti db lines sup note rand).1 := by
  refine ⟨masukMulti_WF _ _ _ _ _ hwf, ?_⟩
  cases hne : lines.isEmpty with
  | true => rw [masukMulti_noLines hne]; exact hinv
  | false =>
      by_cases herr : inErrors 0 lines = []
      · rw [masukMulti_valid hne herr]
        have hlast : lastD lines ⟨"", "", 0, "", 0, "", ""⟩ ∈ lines :=
          lastD_mem (by simpa using hne) _
        exact ledgerStep_in db _ _ _ _ _ _ _ _ _ _ _ _ _ _ hwf hinv (htrim _ hlast)
      · rw [masukMulti_invalid hne herr]; exact hinv

theorem step_outS (db : DB) (name unit : String) (qty : ℚ)
    (requester note : String) (rand : Nat)
    (hwf : WF db) (hinv : LedgerInv db) :
    WF (keluarSingle db name unit qty requester note rand).1 ∧
      LedgerInv (keluarSingle db name unit qty requester note rand).1 := by
  refine ⟨keluarSingle_WF _ _ _ _ _ _ _ hwf, ?_⟩
  by_cases hv : name = "" ∨ qty ≤ 0 ∨ unit = "" ∨ requester = ""
  · rw [keluarSingle_invalid hv]; exact hinv
  · cases hf : findItem db.items name unit with
    | none => rw [keluarSingle_absent hv hf]; exact hinv
    | some it =>
        by_cases hlt : it.quantity < qty
        · rw [keluarSingle_short hv hf hlt]; exact hinv
        · rw [keluarSingle_ok hv hf hlt]
          exact ledgerStep_out db name unit qty _ _ _ _ _ _ _ hwf hinv hf hlt

theorem step_outB (db : DB) (lines : List OutLine) (requester note_all : String)
    (rand : Nat) (hwf : WF db) (hinv : LedgerInv db)
    (hflag : (keluarMulti db lines requester note_all rand).2.2 = true) :
    WF (keluarMulti db lines requester note_all rand).1 ∧
      LedgerInv (keluarMulti db lines requester note_all rand).1 := by
  cases hne : lines.isEmpty with
  | true => rw [keluarMulti_noLines hne]; exact ⟨hwf, hinv⟩
  | false =>
      by_cases hr : requester = ""
      · rw [keluarMulti_noReq hne hr]; exact ⟨hwf, hinv⟩
      · by_cases hbad : outErrors 0 lines = []
        · by_cases hins : insufficientList db lines = []
          · rw [keluarMulti_apply hne hr hbad hins] at hflag ⊢
            exact applyOutLines_ledger _ _ db lines hwf hinv hflag
          · rw [keluarMulti_insufficient hne hr hbad hins]; exact ⟨hwf, hinv⟩
        · rw [keluarMulti_invalid hne hr hbad]; exact ⟨hwf, hinv⟩

/-! ## Grouping characterisation -/

theorem mem_groupTotals {bucket : Date → Nat × Nat} {rows : List MovementRow}
    {k : (Nat × Nat) × String × String × String} {s : ℚ} :
    (k, s) ∈ groupTotals bucket rows ↔
      (∃ r ∈ rows, rowKey bucket r = k) ∧
        s = sumQty rows (fun r => decide (rowKey bucket r = k)) := by
  unfold groupTotals
  constructor
  · intro h
    rcases List.mem_map.mp h with ⟨k', hk', heq⟩
    have hk : k' = k := congrArg Prod.fst heq
    subst hk
    have hs : s = sumQty rows (fun r => decide (rowKey bucket r = k')) :=
      (congrArg Prod.snd heq).symm
    have hmem : k' ∈ rows.map (rowKey bucket) := List.mem_dedup.mp hk'
    rcases List.mem_map.mp hmem with ⟨r, hr, hrk⟩
    exact ⟨⟨r, hr, hrk⟩, hs⟩
  · rintro ⟨⟨r, hr, hrk⟩, hs⟩
    refine List.mem_map.mpr ⟨k, ?_, ?_⟩
    · exact List.mem_dedup.mpr (List.mem_map.mpr ⟨r, hr, hrk⟩)
    · rw [hs]

/-! ## Claim theorems -/

/-- C10: the bulk reset does not only empty `transactions` and `items`:
it also deletes every `users` row whose username differs from
`"keep_admin"`, so only accounts literally named `keep_admin` survive. -/
theorem c10_reset_also_wipes_users (db : DB) :
    (resetDB db).transactions = [] ∧ (resetDB db).items = [] ∧
      ∀ u : Account, u ∈ (resetDB db).users ↔ u ∈ db.users ∧ u.username = "keep_admin" := by
  refine ⟨rfl, rfl, ?_⟩
  intro u
  simp [resetDB, List.mem_filter]

/-- C3: outbound on an existing item with `available < requested` fails
with the insufficient-stock error; the store — quantities and transaction
log alike — is returned unchanged. -/
theorem c3_outbound_short_is_noop (db : DB) (name unit : String) (qty : ℚ)
    (requester note : String) (rand : Nat) (it : Item)
    (hn : name ≠ "") (hu : unit ≠ "") (hq : 0 < qty) (hr : requester ≠ "")
    (hf : findItem db.items name unit = some it) (hlt : it.quantity < qty) :
    keluarSingle db name unit qty requester note rand = (db, some "Stok tidak cukup") := by
  have hv : ¬ (name = "" ∨ qty ≤ 0 ∨ unit = "" ∨ requester = "") := by
    push_neg
    exact ⟨hn, hq, hu, hr⟩
  exact keluarSingle_short hv hf hlt

/-- The spec scenario state: Gloves in stock at quantity 6. -/
def glovesDB : DB :=
  { users := [], items := [Item.mk 1 "Gloves" "" "box" 6 5 "" none 0 0],
    transactions := [], nextId := 2, now := 1 }

/-- Witness for C3: requesting 10 Gloves out of 6 is rejected and the
store is untouched. -/
theorem c3_witness :
    keluarSingle glovesDB "Gloves" "box" 10 "Bob" "" 0 = (glovesDB, some "Stok tidak cukup") :=
  c3_outbound_short_is_noop glovesDB "Gloves" "box" 10 "Bob" "" 0
    (Item.mk 1 "Gloves" "" "box" 6 5 "" none 0 0)
    (by decide) (by decide) (by decide) (by decide) (by decide) (by decide)

/-- C5: outbound with sufficient stock decrements by exactly the request,
refreshes the item's `updated_at` to the current clock, and appends one
`"out"` transaction row for that quantity. -/
theorem c5_outbound_success (db : DB) (name unit : String) (qty : ℚ)
    (requester note : String) (rand : Nat) (it : Item) (hwf : WF db)
    (hn : name ≠ "") (hu : unit ≠ "") (hq : 0 < qty) (hr : requester ≠ "")
    (hf : findItem db.items name unit = some it) (hge : ¬ it.quantity < qty) :
    (keluarSingle db name unit qty requester note rand).2 = none ∧
    itemQty (keluarSingle db name unit qty requester note rand).1.items name unit =
      it.quantity - qty ∧
    findItem (keluarSingle db name unit qty requester note rand).1.items name unit =
      some (outboundUpd it qty db.now it) ∧
    (keluarSingle db name unit qty requester note rand).1.transactions =
      db.transactions ++ [Trx.mk "out" (some it.id) name qty unit (some requester) none
        note (generate_trx_code "out" db.now rand) (generate_trx_code "out" db.now rand)
        none db.now] := by
  have hv : ¬ (name = "" ∨ qty ≤ 0 ∨ unit = "" ∨ requester = "") := by
    push_neg
    exact ⟨hn, hq, hu, hr⟩
  have heq := @keluarSingle_ok db name unit qty requester note rand it hv hf hge
  refine ⟨by rw [heq], ?_, ?_, ?_⟩
  · rw [heq]
    show itemQty (adjust_item_for_out db name unit qty).2.2.items name unit = _
    exact adjust_qty hwf.1 hf hge
  · rw [heq]
    show findItem (adjust_item_for_out db name unit qty).2.2.items name unit = _
    exact adjust_find_after hwf.1 hf hge
  · rw [heq, adjust_found hf hge]
    rfl

/-- Witness for C5: taking 4 of 6 Gloves leaves 2, stamps the row, and
logs one outbound transaction of 4. -/
theorem c5_witness :
    (keluarSingle glovesDB "Gloves" "box" 4 "Alice" "" 0).2 = none ∧
    itemQty (keluarSingle glovesDB "Gloves" "box" 4 "Alice" "" 0).1.items "Gloves" "box" =
      (6 : ℚ) - 4 ∧
    findItem (keluarSingle glovesDB "Gloves" "box" 4 "Alice" "" 0).1.items "Gloves" "box" =
      some (outboundUpd (Item.mk 1 "Gloves" "" "box" 6 5 "" none 0 0) 4 glovesDB.now
        (Item.mk 1 "Gloves" "" "box" 6 5 "" none 0 0)) ∧
    (keluarSingle glovesDB "Gloves" "box" 4 "Alice" "" 0).1.transactions =
      glovesDB.transactions ++ [Trx.mk "out" (some 1) "Gloves" 4 "box" (some "Alice") none
        "" (generate_trx_code "out" glovesDB.now 0) (generate_trx_code "out" glovesDB.now 0)
        none glovesDB.now] :=
  c5_outbound_success glovesDB "Gloves" "box" 4 "Alice" "" 0
    (Item.mk 1 "Gloves" "" "box" 6 5 "" none 0 0)
    (by decide) (by decide) (by decide) (by decide) (by decide) (by decide) (by decide)

/-- C4: a valid single inbound adds exactly the requested quantity to the
(name, unit) item — creating it with that quantity when absent — and
appends exactly one `"in"` transaction row for that quantity. -/
theorem c4_inbound_single_adds (db : DB) (name category unit : String)
    (qty ms : ℚ) (rack : String) (exp sup : Option String) (rand : Nat)
    (hwf : WF db) (hn : name ≠ "") (hu : unit ≠ "") (hq : 0 < qty)
    (htrim : (pyStrip name) = name) :
    (masukSingle db name category unit qty ms rack exp sup rand).2 = none ∧
    itemQty (masukSingle db name category unit qty ms rack exp sup rand).1.items name unit =
      itemQty db.items name unit + qty ∧
    (findItem db.items name unit = none →
      (masukSingle db name category unit qty ms rack exp sup rand).1.items =
        db.items ++ [freshItem db name category unit qty ms rack exp]) ∧
    (masukSingle db name category unit qty ms rack exp sup rand).1.transactions =
      db.transactions ++ [Trx.mk "in"
        (some (upsert_item db name category unit qty ms rack exp).1) name qty unit
        none sup "Single-item masuk" (generate_trx_code "in" db.now rand)
        (generate_trx_code "in" db.now rand) exp db.now] := by
  have hv : ¬ (name = "" ∨ qty ≤ 0 ∨ unit = "") := by
    push_neg
    exact ⟨hn, hq, hu⟩
  have heq := @masukSingle_valid db name category unit qty ms rack exp sup rand hv
  refine ⟨by rw [heq], ?_, ?_, ?_⟩
  · rw [heq]
    show itemQty (upsert_item db name category unit qty ms rack exp).2.items name unit = _
    have h := upsert_item_qty db name category unit qty ms rack exp hwf.1
    rw [htrim] at h
    exact h
  · intro habs
    rw [heq]
    show (upsert_item db name category unit qty ms rack exp).2.items = _
    rw [upsert_item_absent (htrim.symm ▸ habs)]
    rw [htrim]
    rfl
  · rw [heq]
    show (add_transaction_record (upsert_item db name category unit qty ms rack exp).2
      "in" _ name qty unit none sup "Single-item masuk" _ _ exp).transactions = _
    rw [addTrx_transactions, upsert_item_transactions, upsert_item_now]

/-- Witness for C4: inbound of 5 Mask boxes into the empty store creates
the item at quantity 5 and logs one inbound row of 5. -/
theorem c4_witness :
    (masukSingle emptyDB "Mask" "" "box" 5 0 "" none none 3).2 = none ∧
    itemQty (masukSingle emptyDB "Mask" "" "box" 5 0 "" none none 3).1.items "Mask" "box" =
      itemQty emptyDB.items "Mask" "box" + 5 ∧
    (findItem emptyDB.items "Mask" "box" = none →
      (masukSingle emptyDB "Mask" "" "box" 5 0 "" none none 3).1.items =
        emptyDB.items ++ [freshItem emptyDB "Mask" "" "box" 5 0 "" none]) ∧
    (masukSingle emptyDB "Mask" "" "box" 5 0 "" none none 3).1.transactions =
      emptyDB.transactions ++ [Trx.mk "in"
        (some (upsert_item emptyDB "Mask" "" "box" 5 0 "" none).1) "Mask" 5 "box"
        none none "Single-item masuk" (generate_trx_code "in" emptyDB.now 3)
        (generate_trx_code "in" emptyDB.now 3) none emptyDB.now] :=
  c4_inbound_single_adds emptyDB "Mask" "" "box" 5 0 "" none none 3
    (by decide) (by decide) (by decide) (by decide) (by decide)

/-- C2: a batch with any invalid line (inbound or outbound), or any
outbound line failing the stock / existence pre-flight, leaves the store
— items and transaction log — completely unchanged. -/
theorem c2_batch_reject_zero_mutation :
    (∀ (db : DB) (lines : List InLine) (sup note : String) (rand : Nat),
       (∃ l ∈ lines, badIn l) → (masukMulti db lines sup note rand).1 = db) ∧
    (∀ (db : DB) (lines : List OutLine) (requester note_all : String) (rand : Nat),
       ((∃ l ∈ lines, badOut l) ∨ (∃ l ∈ lines, outCheck db l ≠ none)) →
         (keluarMulti db lines requester note_all rand).1 = db) := by
  constructor
  · rintro db lines sup note rand ⟨l, hl, hbad⟩
    have hne : lines.isEmpty = false := by
      cases lines with
      | nil => cases hl
      | cons x xs => rfl
    rw [masukMulti_invalid hne (inErrors_ne_nil hl hbad 0)]
  · intro db lines requester note_all rand h
    have hnil : lines ≠ [] := by
      rcases h with ⟨l, hl, _⟩ | ⟨l, hl, _⟩ <;> exact List.ne_nil_of_mem hl
    have hne : lines.isEmpty = false := by
      cases lines with
      | nil => exact absurd rfl hnil
      | cons x xs => rfl
    by_cases hr : requester = ""
    · rw [keluarMulti_noReq hne hr]
    · by_cases hbad : outErrors 0 lines = []
      · rcases h with ⟨l, hl, hb⟩ | ⟨l, hl, hc⟩
        · exact absurd hb (outErrors_eq_nil hbad l hl)
        · rw [keluarMulti_insufficient hne hr hbad (insufficientList_ne_nil hl hc)]
      · rw [keluarMulti_invalid hne hr hbad]

/-- Witness for C2: the spec scenario — inbound lines Mask/5 and a
nameless line are rejected with no mutation; an outbound line for an item
missing from the empty store is rejected with no mutation. -/
theorem c2_witness :
    (masukMulti glovesDB [InLine.mk "Mask" "box" 5 "" 0 "" "",
       InLine.mk "" "box" 3 "" 0 "" ""] "s" "n" 0).1 = glovesDB ∧
    (keluarMulti glovesDB [OutLine.mk "Mask" "box" 1 ""] "Bob" "n" 0).1 = glovesDB :=
  ⟨c2_batch_reject_zero_mutation.1 glovesDB _ "s" "n" 0
     ⟨InLine.mk "" "box" 3 "" 0 "" "", by decide, by decide⟩,
   c2_batch_reject_zero_mutation.2 glovesDB _ "Bob" "n" 0
     (Or.inr ⟨OutLine.mk "Mask" "box" 1 "", by decide, by decide⟩)⟩

theorem adjustUpdatedDB_transactions (db : DB) (it : Item) (q : ℚ) :
    (adjustUpdatedDB db it q).transactions = db.transactions := rfl

theorem adjustUpdatedDB_now (db : DB) (it : Item) (q : ℚ) :
    (adjustUpdatedDB db it q).now = db.now := rfl

/-- Full computation of an outbound batch of two lines on the same item,
each within stock but jointly over stock: the pre-flight passes, the first
decrement succeeds, the second fails silently (its error is discarded),
and BOTH lines get transaction rows — the second with a null item id. -/
theorem keluarMulti_two_lines (db : DB) (name unit : String) (q1 q2 : ℚ)
    (note1 note2 requester note_all : String) (rand : Nat) (it : Item) (hwf : WF db)
    (hn : name ≠ "") (hu : unit ≠ "") (hr : requester ≠ "")
    (hq1 : 0 < q1) (hq2 : 0 < q2)
    (hf : findItem db.items name unit = some it)
    (h1 : ¬ it.quantity < q1) (h2 : ¬ it.quantity < q2)
    (hsum : it.quantity < q1 + q2) :
    keluarMulti db [OutLine.mk name unit q1 note1, OutLine.mk name unit q2 note2]
        requester note_all rand =
      (add_transaction_record
        (add_transaction_record (adjustUpdatedDB db it q1) "out" (some it.id) name q1
          unit (some requester) none note1 (generate_trx_code "out" db.now rand)
          (generate_trx_code "out" db.now rand) none)
        "out" none name q2 unit (some requester) none note2
        (generate_trx_code "out" db.now rand) (generate_trx_code "out" db.now rand) none,
       none, false) := by
  have hkey := findItem_key hf
  have hne : ([OutLine.mk name unit q1 note1, OutLine.mk name unit q2 note2] :
      List OutLine).isEmpty = false := rfl
  have hb1 : ¬ badOut (OutLine.mk name unit q1 note1) := by
    unfold badOut
    push_neg
    exact ⟨hn, hq1, hu⟩
  have hb2 : ¬ badOut (OutLine.mk name unit q2 note2) := by
    unfold badOut
    push_neg
    exact ⟨hn, hq2, hu⟩
  have hbad : outErrors 0 [OutLine.mk name unit q1 note1, OutLine.mk name unit q2 note2] = [] := by
    unfold outErrors
    rw [if_neg hb1]
    unfold outErrors
    rw [if_neg hb2]
    rfl
  have hc1 : outCheck db (OutLine.mk name unit q1 note1) = none := by
    dsimp only [outCheck]
    rw [hf]
    dsimp only
    rw [if_neg h1]
  have hc2 : outCheck db (OutLine.mk name unit q2 note2) = none := by
    dsimp only [outCheck]
    rw [hf]
    dsimp only
    rw [if_neg h2]
  have hins : insufficientList db
      [OutLine.mk name unit q1 note1, OutLine.mk name unit q2 note2] = [] := by
    simp [insufficientList, hc1, hc2]
  have s1 := adjust_found hf h1
  have hf2 : findItem (add_transaction_record (adjustUpdatedDB db it q1) "out"
      (some it.id) name q1 unit (some requester) none note1
      (generate_trx_code "out" db.now rand) (generate_trx_code "out" db.now rand)
      none).items name unit = some (outboundUpd it q1 db.now it) := by
    rw [addTrx_items, adjustUpdatedDB_items]
    exact findItem_update_self hwf.1 hf hkey.1 hkey.2
  have hlt2 : (outboundUpd it q1 db.now it).quantity < q2 := by
    show it.quantity - q1 < q2
    linarith
  have s2 := adjust_short hf2 hlt2
  rw [@keluarMulti_apply db _ requester note_all rand hne hr hbad hins,
    applyOutLines_cons]
  dsimp only
  rw [s1]
  dsimp only
  rw [applyOutLines_cons]
  dsimp only
  rw [s2]
  dsimp only
  rw [applyOutLines_nil]
  rfl

/-- C9: the outbound-batch pre-flight checks each line against the SAME
stored quantity, so two lines for one item that each fit but jointly
overdraw pass pre-flight; the apply phase then silently drops the second
decrement (its error is bound to `_`) yet still appends an outbound
transaction row for it, with a null item id. -/
theorem c9_outbound_batch_oversell (db : DB) (name unit : String) (q1 q2 : ℚ)
    (note1 note2 requester note_all : String) (rand : Nat) (it : Item) (hwf : WF db)
    (hn : name ≠ "") (hu : unit ≠ "") (hr : requester ≠ "")
    (hq1 : 0 < q1) (hq2 : 0 < q2)
    (hf : findItem db.items name unit = some it)
    (h1 : ¬ it.quantity < q1) (h2 : ¬ it.quantity < q2)
    (hsum : it.quantity < q1 + q2) :
    (keluarMulti db [OutLine.mk name unit q1 note1, OutLine.mk name unit q2 note2]
        requester note_all rand).2.1 = none ∧
    itemQty (keluarMulti db [OutLine.mk name unit q1 note1, OutLine.mk name unit q2 note2]
        requester note_all rand).1.items name unit = it.quantity - q1 ∧
    (keluarMulti db [OutLine.mk name unit q1 note1, OutLine.mk name unit q2 note2]
        requester note_all rand).1.transactions = db.transactions ++
      [Trx.mk "out" (some it.id) name q1 unit (some requester) none note1
         (generate_trx_code "out" db.now rand) (generate_trx_code "out" db.now rand)
         none db.now,
       Trx.mk "out" none name q2 unit (some requester) none note2
         (generate_trx_code "out" db.now rand) (generate_trx_code "out" db.now rand)
         none db.now] ∧
    (keluarMulti db [OutLine.mk name unit q1 note1, OutLine.mk name unit q2 note2]
        requester note_all rand).2.2 = false := by
  have hcore := keluarMulti_two_lines db name unit q1 q2 note1 note2 requester note_all
    rand it hwf hn hu hr hq1 hq2 hf h1 h2 hsum
  refine ⟨by rw [hcore], ?_, ?_, by rw [hcore]⟩
  · rw [hcore]
    show itemQty (adjustUpdatedDB db it q1).items name unit = _
    have h := adjust_qty hwf.1 hf h1
    rw [adjust_found hf h1] at h
    exact h
  · rw [hcore]
    show (add_transaction_record (add_transaction_record (adjustUpdatedDB db it q1)
      "out" (some it.id) name q1 unit (some requester) none note1 _ _ none)
      "out" none name q2 unit (some requester) none note2 _ _ none).transactions = _
    rw [addTrx_transactions, addTrx_transactions, adjustUpdatedDB_transactions,
      List.append_assoc]
    rfl

/-- A store holding one item A at quantity 10 with a matching inbound log. -/
def oversellDB : DB :=
  { users := [], items := [Item.mk 1 "A" "" "pcs" 10 0 "" none 0 0],
    transactions := [Trx.mk "in" (some 1) "A" 10 "pcs" none none "" "t" "t" none 0],
    nextId := 2, now := 3 }

/-- Witness for C9: lines (A,6) and (A,6) against stock 10 pass pre-flight;
stock ends at 4 and two outbound rows of 6 are logged, the second with a
null item id. -/
theorem c9_witness :
    (keluarMulti oversellDB [OutLine.mk "A" "pcs" 6 "", OutLine.mk "A" "pcs" 6 ""]
        "Bob" "" 0).2.1 = none ∧
    itemQty (keluarMulti oversellDB [OutLine.mk "A" "pcs" 6 "", OutLine.mk "A" "pcs" 6 ""]
        "Bob" "" 0).1.items "A" "pcs" = (10 : ℚ) - 6 ∧
    (keluarMulti oversellDB [OutLine.mk "A" "pcs" 6 "", OutLine.mk "A" "pcs" 6 ""]
        "Bob" "" 0).1.transactions = oversellDB.transactions ++
      [Trx.mk "out" (some 1) "A" 6 "pcs" (some "Bob") none ""
         (generate_trx_code "out" oversellDB.now 0) (generate_trx_code "out" oversellDB.now 0)
         none oversellDB.now,
       Trx.mk "out" none "A" 6 "pcs" (some "Bob") none ""
         (generate_trx_code "out" oversellDB.now 0) (generate_trx_code "out" oversellDB.now 0)
         none oversellDB.now] ∧
    (keluarMulti oversellDB [OutLine.mk "A" "pcs" 6 "", OutLine.mk "A" "pcs" 6 ""]
        "Bob" "" 0).2.2 = false :=
  c9_outbound_batch_oversell oversellDB "A" "pcs" 6 6 "" "" "Bob" "" 0
    (Item.mk 1 "A" "" "pcs" 10 0 "" none 0 0) (by decide)
    (by decide) (by decide) (by decide) (by decide) (by decide) (by decide)
    (by decide) (by decide) (by norm_num)

/-- The C1 failing input: an inbound batch of two valid lines. -/
def c1lines : List InLine :=
  [InLine.mk "A" "pcs" 2 "" 0 "" "", InLine.mk "B" "pcs" 3 "" 0 "" ""]

/-- C1 (code bug): on a fully valid two-line inbound batch, the handler
validates both lines, but the upsert and the transaction insert sit AFTER
the per-line loop (which only parses expiry dates), so only the LAST line
is persisted — one transaction row instead of two — and the first success
message is emitted before anything is persisted. -/
theorem c1_batch_inbound_persists_only_last_line :
    (∀ l ∈ c1lines, ¬ badIn l) ∧
    (masukMulti emptyDB c1lines "sup" "note" 7).1.transactions.length = 1 ∧
    (masukMulti emptyDB c1lines "sup" "note" 7).1.items.map Item.name = ["B"] ∧
    (masukMulti emptyDB c1lines "sup" "note" 7).1.transactions.map Trx.name = ["B"] ∧
    (masukMulti emptyDB c1lines "sup" "note" 7).2 =
      [Ev.successMsg "Transaksi berhasil disimpan!",
       Ev.persisted "B" "pcs" 3,
       Ev.successMsg ("Sukses menyimpan batch masuk. Trx: " ++ generate_trx_code "in" 0 7)] :=
  ⟨by decide, rfl, rfl, rfl, rfl⟩

/-- C6 (amended): the four ledger handlers preserve non-negativity of
every quantity unconditionally; the bulk import preserves it only when
every imported row's quantity is non-negative — it performs no quantity
validation of its own. -/
theorem c6_nonneg_amended :
    (∀ (db : DB) (name category unit : String) (qty ms : ℚ) (rack : String)
        (exp sup : Option String) (rand : Nat), Nonneg db →
        Nonneg (masukSingle db name category unit qty ms rack exp sup rand).1) ∧
    (∀ (db : DB) (lines : List InLine) (sup note : String) (rand : Nat), Nonneg db →
        Nonneg (masukMulti db lines sup note rand).1) ∧
    (∀ (db : DB) (name unit : String) (qty : ℚ) (requester note : String)
        (rand : Nat), Nonneg db →
        Nonneg (keluarSingle db name unit qty requester note rand).1) ∧
    (∀ (db : DB) (lines : List OutLine) (requester note_all : String) (rand : Nat),
        Nonneg db → Nonneg (keluarMulti db lines requester note_all rand).1) ∧
    (∀ (db : DB) (cols : List String) (rows : List ImportRow) (out : DB × Nat),
        Nonneg db → (∀ r ∈ rows, 0 ≤ r.quantity) →
        load_inventory_from_excel db cols rows = Except.ok out → Nonneg out.1) := by
  refine ⟨masukSingle_nonneg, masukMulti_nonneg, keluarSingle_nonneg,
    keluarMulti_nonneg, ?_⟩
  intro db cols rows out hnn hrows hok
  unfold load_inventory_from_excel at hok
  by_cases hc : "name" ∈ cols.map lowerS ∧ "quantity" ∈ cols.map lowerS ∧
      "unit" ∈ cols.map lowerS
  · rw [if_pos hc] at hok
    injection hok with hok
    rw [← hok]
    exact importRows_nonneg db rows hnn hrows
  · rw [if_neg hc] at hok
    cases hok

/-- Counterexample for C6 as stated: importing a row with quantity −5
into the (all-non-negative) empty store succeeds and leaves an item with
a negative quantity. -/
theorem c6_counterexample :
    load_inventory_from_excel emptyDB ["name", "quantity", "unit"]
        [ImportRow.mk "A" (-5) "pcs" "" 0 "" none] =
      Except.ok (importRows emptyDB [ImportRow.mk "A" (-5) "pcs" "" 0 "" none], 1) ∧
    Nonneg emptyDB ∧
    ¬ Nonneg (importRows emptyDB [ImportRow.mk "A" (-5) "pcs" "" 0 "" none]) :=
  ⟨rfl, by decide, by decide⟩

/-- Witness for the amended C6 at concrete inputs. -/
theorem c6_witness :
    Nonneg (masukSingle emptyDB "A" "" "pcs" 1 0 "" none none 0).1 ∧
    Nonneg (masukMulti emptyDB [InLine.mk "A" "pcs" 1 "" 0 "" ""] "s" "n" 0).1 ∧
    Nonneg (keluarSingle glovesDB "Gloves" "box" 1 "Bob" "" 0).1 ∧
    Nonneg (keluarMulti glovesDB [OutLine.mk "Gloves" "box" 1 ""] "Bob" "" 0).1 ∧
    Nonneg (importRows emptyDB [ImportRow.mk "A" 2 "pcs" "" 0 "" none]) :=
  ⟨c6_nonneg_amended.1 emptyDB "A" "" "pcs" 1 0 "" none none 0 (by decide),
   c6_nonneg_amended.2.1 emptyDB [InLine.mk "A" "pcs" 1 "" 0 "" ""] "s" "n" 0 (by decide),
   c6_nonneg_amended.2.2.1 glovesDB "Gloves" "box" 1 "Bob" "" 0 (by decide),
   c6_nonneg_amended.2.2.2.1 glovesDB [OutLine.mk "Gloves" "box" 1 ""] "Bob" "" 0 (by decide),
   c6_nonneg_amended.2.2.2.2 emptyDB ["name", "quantity", "unit"]
     [ImportRow.mk "A" 2 "pcs" "" 0 "" none]
     (importRows emptyDB [ImportRow.mk "A" 2 "pcs" "" 0 "" none], 1)
     (by decide) (by decide) rfl⟩

/-- C7 (amended): starting from the empty store, every single/batch
inbound and outbound operation preserves the equality "stored quantity =
net logged movement" for every (name, unit) key, PROVIDED inbound names
carry no surrounding whitespace and no outbound-batch decrement fails in
the apply phase; bulk import is excluded (it logs nothing). -/
theorem c7_ledger_invariant_amended :
    LedgerInv emptyDB ∧ WF emptyDB ∧
    (∀ (db : DB) (op : LOp), WF db → LedgerInv db → OpOk db op →
       WF (op.apply db) ∧ LedgerInv (op.apply db)) := by
  refine ⟨fun n u => rfl, by decide, ?_⟩
  intro db op hwf hinv hok
  cases op with
  | inS name category unit qty ms rack exp sup rand =>
      exact step_inS db name category unit qty ms rack exp sup rand hwf hinv hok
  | inB lines sup note rand =>
      exact step_inB db lines sup note rand hwf hinv hok
  | outS name unit qty requester note rand =>
      exact step_outS db name unit qty requester note rand hwf hinv
  | outB lines requester note_all rand =>
      exact step_outB db lines requester note_all rand hwf hinv hok

/-- Witness for the amended C7: one inbound step from the empty store. -/
theorem c7_witness :
    WF (LOp.apply emptyDB (LOp.inS "A" "" "pcs" 2 0 "" none none 1)) ∧
    LedgerInv (LOp.apply emptyDB (LOp.inS "A" "" "pcs" 2 0 "" none none 1)) :=
  c7_ledger_invariant_amended.2.2 emptyDB (LOp.inS "A" "" "pcs" 2 0 "" none none 1)
    (by decide) (fun n u => rfl) (show pyStrip "A" = "A" by decide)

/-- Counterexample for C7 as stated, in three parts.  (1) A bulk-import
row mutates the quantity but logs no transaction, so the equality fails
right after an import.  (2) An outbound batch whose second decrement fails
still logs that line, breaking the equality.  (3) An inbound name with
surrounding whitespace is trimmed in the item row but logged raw. -/
theorem c7_counterexample :
    (load_inventory_from_excel emptyDB ["name", "quantity", "unit"]
        [ImportRow.mk "A" 5 "pcs" "" 0 "" none] =
      Except.ok (importRows emptyDB [ImportRow.mk "A" 5 "pcs" "" 0 "" none], 1) ∧
     ¬ LedgerInv (importRows emptyDB [ImportRow.mk "A" 5 "pcs" "" 0 "" none])) ∧
    (LedgerInv oversellDB ∧
     ¬ LedgerInv (keluarMulti oversellDB [OutLine.mk "A" "pcs" 6 "", OutLine.mk "A" "pcs" 6 ""]
         "Bob" "" 0).1) ∧
    ¬ LedgerInv (masukSingle emptyDB " A" "" "pcs" 5 0 "" none none 0).1 := by
  refine ⟨⟨rfl, ?_⟩, ⟨?_, ?_⟩, ?_⟩
  · intro h
    exact absurd (h "A" "pcs") (by decide)
  · intro n u
    by_cases h : ("A" = n ∧ "pcs" = u)
    · obtain ⟨rfl, rfl⟩ := h
      show itemQty oversellDB.items "A" "pcs" = trxSum oversellDB.transactions "A" "pcs"
      rw [show itemQty oversellDB.items "A" "pcs" = 10 from rfl]
      rw [show oversellDB.transactions =
        [Trx.mk "in" (some 1) "A" 10 "pcs" none none "" "t" "t" none 0] from rfl]
      rw [trxSum_single, if_pos ⟨rfl, rfl⟩, if_pos rfl]
    · show itemQty oversellDB.items n u = trxSum oversellDB.transactions n u
      unfold itemQty
      rw [show oversellDB.items = [Item.mk 1 "A" "" "pcs" 10 0 "" none 0 0] from rfl,
        show oversellDB.transactions =
          [Trx.mk "in" (some 1) "A" 10 "pcs" none none "" "t" "t" none 0] from rfl,
        trxSum_single, findItem_cons, if_neg h, if_neg h]
      rfl
  · have hwfo : WF oversellDB := by decide
    have hfA : findItem oversellDB.items "A" "pcs" =
        some (Item.mk 1 "A" "" "pcs" 10 0 "" none 0 0) := by decide
    have hcore := keluarMulti_two_lines oversellDB "A" "pcs" 6 6 "" "" "Bob" "" 0
      (Item.mk 1 "A" "" "pcs" 10 0 "" none 0 0) hwfo (by decide) (by decide) (by decide)
      (by decide) (by decide) hfA (by decide) (by decide) (by norm_num)
    intro hL
    have h0 := hL "A" "pcs"
    have h1q : itemQty (keluarMulti oversellDB
        [OutLine.mk "A" "pcs" 6 "", OutLine.mk "A" "pcs" 6 ""] "Bob" "" 0).1.items
        "A" "pcs" = 4 := by
      rw [hcore]
      have hq := @adjust_qty oversellDB "A" "pcs" 6 (Item.mk 1 "A" "" "pcs" 10 0 "" none 0 0)
        hwfo.1 hfA (by decide)
      rw [adjust_found hfA (by decide)] at hq
      show itemQty (adjustUpdatedDB oversellDB (Item.mk 1 "A" "" "pcs" 10 0 "" none 0 0)
        6).items "A" "pcs" = 4
      exact hq.trans (by norm_num)
    have h2q : trxSum (keluarMulti oversellDB
        [OutLine.mk "A" "pcs" 6 "", OutLine.mk "A" "pcs" 6 ""] "Bob" "" 0).1.transactions
        "A" "pcs" = -2 := by
      rw [hcore]
      rw [show (add_transaction_record (add_transaction_record (adjustUpdatedDB oversellDB
          (Item.mk 1 "A" "" "pcs" 10 0 "" none 0 0) 6) "out" (some 1) "A" 6 "pcs"
          (some "Bob") none "" (generate_trx_code "out" oversellDB.now 0)
          (generate_trx_code "out" oversellDB.now 0) none) "out" none "A" 6 "pcs"
          (some "Bob") none "" (generate_trx_code "out" oversellDB.now 0)
          (generate_trx_code "out" oversellDB.now 0) none, (none : Option String),
          false).1.transactions = (oversellDB.transactions ++ [Trx.mk "out" (some 1) "A"
          6 "pcs" (some "Bob") none "" (generate_trx_code "out" oversellDB.now 0)
          (generate_trx_code "out" oversellDB.now 0) none oversellDB.now]) ++
          [Trx.mk "out" none "A" 6 "pcs" (some "Bob") none ""
          (generate_trx_code "out" oversellDB.now 0)
          (generate_trx_code "out" oversellDB.now 0) none oversellDB.now] from rfl]
      rw [trxSum_append, trxSum_append, trxSum_single, trxSum_single,
        if_pos (show ("A" : String) = "A" ∧ ("pcs" : String) = "pcs" from ⟨rfl, rfl⟩),
        if_neg (show ¬ ("out" : String) = "in" by decide), if_pos rfl,
        show oversellDB.transactions =
          [Trx.mk "in" (some 1) "A" 10 "pcs" none none "" "t" "t" none 0] from rfl,
        trxSum_single, if_pos (show ("A" : String) = "A" ∧ ("pcs" : String) = "pcs"
          from ⟨rfl, rfl⟩), if_pos rfl]
      norm_num
    rw [h1q, h2q] at h0
    norm_num at h0
  · have hv : ¬ (" A" = "" ∨ (5 : ℚ) ≤ 0 ∨ "pcs" = "") := by
      push_neg
      exact ⟨by decide, by norm_num, by decide⟩
    intro hL
    have h0 := hL "A" "pcs"
    have h1q : itemQty (masukSingle emptyDB " A" "" "pcs" 5 0 "" none none 0).1.items
        "A" "pcs" = 5 := by
      rw [masukSingle_valid hv]
      rfl
    have h2q : trxSum (masukSingle emptyDB " A" "" "pcs" 5 0 "" none none 0).1.transactions
        "A" "pcs" = 0 := by
      rw [masukSingle_valid hv]
      show trxSum ((upsert_item emptyDB " A" "" "pcs" 5 0 "" none).2.transactions ++
        [Trx.mk "in" (some (upsert_item emptyDB " A" "" "pcs" 5 0 "" none).1) " A" 5 "pcs"
          none none "Single-item masuk" (generate_trx_code "in" emptyDB.now 0)
          (generate_trx_code "in" emptyDB.now 0) none
          (upsert_item emptyDB " A" "" "pcs" 5 0 "" none).2.now]) "A" "pcs" = 0
      rw [trxSum_append, trxSum_single, upsert_item_transactions,
        if_neg (show ¬ ((" A" : String) = "A" ∧ ("pcs" : String) = "pcs") by decide)]
      show (0 : ℚ) + 0 = 0
      norm_num
    rw [h1q, h2q] at h0
    norm_num at h0

/-- C8 (amended): `totals_for_period` groups by (period bucket, name,
unit, movement type) and sums the quantities, where the Month bucket is
(year, month) and the Week bucket is (calendar year, `%W` week number:
Monday-started weeks, days before the year's first Monday in week 0) —
NOT the ISO week. -/
theorem c8_totals_grouping_amended (rows : List MovementRow) (hne : rows ≠ [])
    (k : (Nat × Nat) × String × String × String) (s : ℚ) :
    ((k, s) ∈ totals_for_period rows "W" ↔
      (∃ r ∈ rows, rowKey weekBucket r = k) ∧
        s = sumQty rows (fun r => decide (rowKey weekBucket r = k))) ∧
    ((k, s) ∈ totals_for_period rows "M" ↔
      (∃ r ∈ rows, rowKey monthBucket r = k) ∧
        s = sumQty rows (fun r => decide (rowKey monthBucket r = k))) := by
  have hne' : rows.isEmpty = false := by
    cases rows with
    | nil => exact absurd rfl hne
    | cons x xs => rfl
  have hW : totals_for_period rows "W" = groupTotals weekBucket rows := by
    unfold totals_for_period
    rw [hne']
    rw [if_neg (by simp), if_pos rfl]
  have hM : totals_for_period rows "M" = groupTotals monthBucket rows := by
    unfold totals_for_period
    rw [hne']
    rw [if_neg (by simp), if_neg (show ¬ ("M" : String) = "W" by decide), if_pos rfl]
  rw [hW, hM]
  exact ⟨mem_groupTotals, mem_groupTotals⟩

/-- A movement dated 2021-01-01 (a Friday): `%W` puts it in week 0 of
2021, the ISO calendar in week 53 of 2020. -/
def c8row : MovementRow := MovementRow.mk "A" "pcs" "in" 5 (Date.mk 2021 1 1)

/-- Counterexample for C8 as stated: the weekly grouping does not use the
ISO week bucket — on a movement dated 2021-01-01 the code produces the
key (2021, 0) where the ISO calendar gives (2020, 53). -/
theorem c8_counterexample :
    totals_for_period [c8row] "W" ≠ groupTotals isoWeekBucket [c8row] ∧
    (totals_for_period [c8row] "W").map Prod.fst = [((2021, 0), "A", "pcs", "in")] ∧
    (groupTotals isoWeekBucket [c8row]).map Prod.fst = [((2020, 53), "A", "pcs", "in")] :=
  ⟨by decide, by decide, by decide⟩

/-- Witness for the amended C8 at the concrete 2021-01-01 movement. -/
theorem c8_witness :
    (((2021, 0), "A", "pcs", "in"), sumQty [c8row]
        (fun r => decide (rowKey weekBucket r = ((2021, 0), "A", "pcs", "in")))) ∈
      totals_for_period [c8row] "W" :=
  (c8_totals_grouping_amended [c8row] (by decide) ((2021, 0), "A", "pcs", "in")
      (sumQty [c8row] (fun r => decide (rowKey weekBucket r =
        ((2021, 0), "A", "pcs", "in"))))).1.mpr
    ⟨⟨c8row, by decide, by decide⟩, rfl⟩
